import Mathlib

/-!
Shallow embedding of the member-to-person synchronization engine of the
DoorFlow sample application.

Sources embedded:
* src/app/api/members/sync/route.ts  (POST, getGroupIdsForMember, tryMatchMember)
* src/lib/teams/storage.ts           (getTeamsByIds, getDoorflowGroupIdsForTeams)
* src/lib/members/storage.ts         (updateMember, restricted to the
  doorflowPersonId field, which is the only field the engine writes;
  the createdAt/updatedAt timestamps are not modelled)
* src/lib/types.ts                   (CrmMember, CrmTeam, SyncResult)

External collaborators (the DoorFlow SDK calls listPeople / createPerson /
updatePerson, the filesystem photo lookup, and the JSON-file store) are
modelled by explicit state passing: the remote directory is a list of
people, the local store a list of members, and every mutating call is
recorded in an effect trace.  Fallibility of the remote calls is supplied
by oracles in an environment record.
-/

namespace MemberSync

/-- JavaScript `toLowerCase` on a string (character-wise lower-casing;
stated on the character list so that it evaluates by kernel reduction). -/
def toLowerCase (s : String) : String :=
  String.mk (s.data.map Char.toLower)

/-- JavaScript truthiness of an optional string (`s` is truthy iff it is
neither null/undefined nor the empty string). -/
def strTruthy : Option String → Bool
  | some s => s ≠ ""
  | none => false

/-- JavaScript truthiness of an optional number (0, null and undefined are
falsy). -/
def numTruthy : Option Nat → Bool
  | some n => n ≠ 0
  | none => false

/-- The JavaScript expression `x || null` for an optional string field. -/
def orNull (x : Option String) : Option String :=
  if strTruthy x then x else none

/-- The JavaScript expression `s || null` for a required string field. -/
def strOrNull (s : String) : Option String :=
  if s = "" then none else some s

/-- The JavaScript expression `x || null` for an optional number field. -/
def natOrNull (x : Option Nat) : Option Nat :=
  if numTruthy x then x else none

/-- `membershipType: 'standard' | 'premium'` from src/lib/types.ts. -/
inductive MembershipType
  | standard
  | premium
deriving DecidableEq

/-- The string value of a membership type (the TS value is the string
itself; it is stored in the remote `custom1` field). -/
def MembershipType.label : MembershipType → String
  | .standard => "standard"
  | .premium => "premium"

/-- `CrmMember` from src/lib/types.ts (timestamps omitted). -/
structure Member where
  id : String
  firstName : String
  lastName : String
  email : String
  phone : Option String := none
  department : Option String := none
  jobTitle : Option String := none
  notes : Option String := none
  organisationId : Option Nat := none
  membershipType : MembershipType := .standard
  teamIds : List String := []
  doorflowPersonId : Option Nat := none
deriving DecidableEq

/-- `CrmTeam` from src/lib/types.ts (timestamps omitted). -/
structure Team where
  id : String
  name : String := ""
  description : Option String := none
  doorflowGroupId : Option Nat := none
deriving DecidableEq

/-- A DoorFlow person record as seen and written through the SDK. -/
structure Person where
  id : Nat
  email : Option String := none
  firstName : Option String := none
  lastName : Option String := none
  telephone : Option String := none
  department : Option String := none
  jobTitle : Option String := none
  notes : Option String := none
  organisationId : Option Nat := none
  custom1 : Option String := none
  enabled : Bool := true
  systemId : Option String := none
  groupIds : List Nat := []
  imageBase64 : Option String := none
deriving DecidableEq

/-- A `matched`/`created` bucket entry of `SyncResult` (src/lib/types.ts). -/
structure MatchEntry where
  member : Member
  personId : Nat
deriving DecidableEq

/-- An `errors` bucket entry of `SyncResult` (src/lib/types.ts). -/
structure ErrorEntry where
  member : Member
  error : String
deriving DecidableEq

/-- `SyncResult` from src/lib/types.ts. -/
structure SyncResult where
  matched : List MatchEntry := []
  created : List MatchEntry := []
  unmatched : List Member := []
  errors : List ErrorEntry := []
deriving DecidableEq

/-- The `personInput` payload of a `createPerson` SDK call
(route.ts lines 268-288). -/
structure PersonInput where
  firstName : Option String := none
  lastName : Option String := none
  email : Option String := none
  telephone : Option String := none
  department : Option String := none
  jobTitle : Option String := none
  notes : Option String := none
  organisationId : Option Nat := none
  custom1 : Option String := none
  enabled : Bool := true
  systemId : Option String := none
  groupIds : Option (List Nat) := none
  imageBase64 : Option String := none
deriving DecidableEq

/-- The `personInput` payload of an `updatePerson` SDK call
(route.ts lines 236-242): each field is present only when the conditional
spread includes it. -/
structure UpdateInput where
  groupIds : Option (List Nat) := none
  imageBase64 : Option String := none
deriving DecidableEq

/-- One mutating call issued by the engine: a local store write of the
`doorflowPersonId` field, a remote `updatePerson`, or a remote
`createPerson`.  Remote calls are recorded even when the remote side
fails them. -/
inductive Effect
  | storeWrite (memberId : String) (dpid : Option Nat)
  | personUpdate (personId : Nat) (input : UpdateInput)
  | personCreate (input : PersonInput)
deriving DecidableEq

/-- Lookup in a JavaScript `Map` built from an entry list: a later
`set` of the same key overwrites an earlier one, so the last matching
entry wins. -/
def jsMapGet {α : Type} (entries : List (String × α)) (key : String) : Option α :=
  (entries.reverse.find? (fun e => e.1 == key)).map (fun e => e.2)

/-- The entries fed into the `peopleByEmail` map (route.ts lines 91-95):
people with a truthy email, keyed by the lower-cased email. -/
def emailIndexEntries (people : List Person) : List (String × Person) :=
  (people.filter (fun p => strTruthy p.email)).map
    (fun p => (toLowerCase (p.email.getD ""), p))

/-- The entries fed into the `teamToGroupMap` map (route.ts lines 71-76):
teams whose `doorflowGroupId` is non-null. -/
def teamToGroupEntries (teams : List Team) : List (String × Nat) :=
  teams.filterMap (fun t => t.doorflowGroupId.map (fun g => (t.id, g)))

/-- `getGroupIdsForMember` (route.ts lines 187-199): collect the mapped
group id of each of the member's teams, dropping unmapped team ids. -/
def getGroupIdsForMember (member : Member) (tmap : List (String × Nat)) : List Nat :=
  member.teamIds.filterMap (fun tid => jsMapGet tmap tid)

/-- `getTeamsByIds` (src/lib/teams/storage.ts lines 172-176). -/
def getTeamsByIds (teams : List Team) (ids : List String) : List Team :=
  teams.filter (fun t => ids.contains t.id)

/-- `getDoorflowGroupIdsForTeams` (src/lib/teams/storage.ts lines 181-189). -/
def getDoorflowGroupIdsForTeams (teams : List Team) (teamIds : List String) : List Nat :=
  (getTeamsByIds teams teamIds).filterMap (fun t => t.doorflowGroupId)

/-- `MemberStorage.update(id, \x7b doorflowPersonId \x7d)`
(src/lib/members/storage.ts `updateMember`): replace the field on the
first member with the given id; no-op when the id is absent. -/
def storeUpdate : List Member → String → Option Nat → List Member
  | [], _, _ => []
  | m :: rest, mid, dpid =>
    if m.id = mid then { m with doorflowPersonId := dpid } :: rest
    else m :: storeUpdate rest mid dpid

/-- Apply an `updatePerson` payload to a person record: a present field
replaces the stored one. -/
def applyUpdate (p : Person) (inp : UpdateInput) : Person :=
  { p with
    groupIds := inp.groupIds.getD p.groupIds
    imageBase64 := match inp.imageBase64 with
      | some s => some s
      | none => p.imageBase64 }

/-- Effect of a successful `updatePerson` call on the remote directory. -/
def remoteUpdate (remote : List Person) (pid : Nat) (inp : UpdateInput) : List Person :=
  remote.map (fun p => if p.id = pid then applyUpdate p inp else p)

/-- The person record allocated by a successful `createPerson` call. -/
def personOfInput (pid : Nat) (inp : PersonInput) : Person :=
  { id := pid
    email := inp.email
    firstName := inp.firstName
    lastName := inp.lastName
    telephone := inp.telephone
    department := inp.department
    jobTitle := inp.jobTitle
    notes := inp.notes
    organisationId := inp.organisationId
    custom1 := inp.custom1
    enabled := inp.enabled
    systemId := inp.systemId
    groupIds := inp.groupIds.getD []
    imageBase64 := inp.imageBase64 }

/-- The `createPerson` payload built from a member
(route.ts lines 268-288). -/
def createInputOfMember (member : Member) (groupIds : List Nat)
    (photoBase64 : Option String) : PersonInput :=
  { firstName := some member.firstName
    lastName := some member.lastName
    email := strOrNull member.email
    telephone := orNull member.phone
    department := orNull member.department
    jobTitle := orNull member.jobTitle
    notes := orNull member.notes
    organisationId := natOrNull member.organisationId
    custom1 := some member.membershipType.label
    enabled := true
    systemId := some member.id
    groupIds := if groupIds.isEmpty then none else some groupIds
    imageBase64 := if strTruthy photoBase64 then photoBase64 else none }

/-- The mutable state threaded through one synchronization run: the local
member store, the remote directory, the fresh-id supply of the remote
side, the accumulated result, and the trace of mutating calls issued. -/
structure SyncState where
  store : List Member
  remote : List Person
  nextId : Nat
  results : SyncResult := {}
  trace : List Effect := []
deriving DecidableEq

/-- External behaviour the run depends on: the filesystem photo lookup
(`getMemberPhotoBase64`), and per-call failure oracles for the two
fallible SDK calls.  `createFail inp = some e` means the `createPerson`
call with payload `inp` throws (`e = some msg` an `Error` carrying that
message, `e = none` a non-`Error` value); `updateFail pid` means the
`updatePerson` call for that person throws. -/
structure Env where
  photoOf : Member → Option String
  createFail : PersonInput → Option (Option String)
  updateFail : Nat → Bool

/-- Append one entry to the `matched` bucket. -/
def SyncState.pushMatched (st : SyncState) (e : MatchEntry) : SyncState :=
  { st with results := { st.results with matched := st.results.matched ++ [e] } }

/-- Append one entry to the `created` bucket. -/
def SyncState.pushCreated (st : SyncState) (e : MatchEntry) : SyncState :=
  { st with results := { st.results with created := st.results.created ++ [e] } }

/-- Append one entry to the `unmatched` bucket. -/
def SyncState.pushUnmatched (st : SyncState) (m : Member) : SyncState :=
  { st with results := { st.results with unmatched := st.results.unmatched ++ [m] } }

/-- Append one entry to the `errors` bucket. -/
def SyncState.pushErrors (st : SyncState) (e : ErrorEntry) : SyncState :=
  { st with results := { st.results with errors := st.results.errors ++ [e] } }

/-- Record one issued mutating call. -/
def SyncState.addEffect (st : SyncState) (e : Effect) : SyncState :=
  { st with trace := st.trace ++ [e] }

/-- Apply a function to the local store component. -/
def SyncState.modifyStore (st : SyncState) (f : List Member → List Member) : SyncState :=
  { st with store := f st.store }

/-- The email-match expression of `tryMatchMember` (route.ts lines
217-220): `member.email ? peopleByEmail.get(member.email.toLowerCase())
: null`. -/
def memberEmailMatch (emailIndex : List (String × Person)) (member : Member) : Option Person :=
  if member.email = "" then none
  else jsMapGet emailIndex (toLowerCase member.email)

/-- `tryMatchMember` (route.ts lines 207-311) as a state transition.
`emailIndex` is the snapshot `peopleByEmail` map, `tmap` the
`teamToGroupMap` map, `photoBase64` the photo looked up by the caller. -/
def tryMatchMember (env : Env) (createMissing dryRun : Bool)
    (emailIndex : List (String × Person)) (tmap : List (String × Nat))
    (member : Member) (photoBase64 : Option String) (st : SyncState) : SyncState :=
  let existingPerson := memberEmailMatch emailIndex member
  let groupIds := getGroupIdsForMember member tmap
  match existingPerson with
  | some p =>
    let st1 :=
      if dryRun then st
      else
        let stW := (st.addEffect (.storeWrite member.id (some p.id))).modifyStore
            (fun s => storeUpdate s member.id (some p.id))
        if !groupIds.isEmpty || strTruthy photoBase64 then
          let inp : UpdateInput :=
            { groupIds := if groupIds.isEmpty then none else some groupIds
              imageBase64 := if strTruthy photoBase64 then photoBase64 else none }
          let stU := stW.addEffect (.personUpdate p.id inp)
          if env.updateFail p.id then stU
          else { stU with remote := remoteUpdate stU.remote p.id inp }
        else stW
    st1.pushMatched { member := { member with doorflowPersonId := some p.id }, personId := p.id }
  | none =>
    if createMissing then
      if dryRun then
        st.pushCreated { member := member, personId := 0 }
      else
        let inp := createInputOfMember member groupIds photoBase64
        let stC := st.addEffect (.personCreate inp)
        match env.createFail inp with
        | some e =>
          stC.pushErrors { member := member, error := e.getD "Failed to create person" }
        | none =>
          let newId := stC.nextId
          let stN := { stC with
            remote := stC.remote ++ [personOfInput newId inp]
            nextId := stC.nextId + 1 }
          let stS := (stN.addEffect (.storeWrite member.id (some newId))).modifyStore
            (fun s => storeUpdate s member.id (some newId))
          stS.pushCreated { member := { member with doorflowPersonId := some newId }, personId := newId }
    else
      st.pushUnmatched member

/-- The body of the member loop of `POST` (route.ts lines 107-152) for a
single member. -/
def processMember (env : Env) (createMissing dryRun : Bool)
    (snapshot : List Person) (emailIndex : List (String × Person))
    (tmap : List (String × Nat)) (st : SyncState) (member : Member) : SyncState :=
  if numTruthy member.doorflowPersonId then
    match snapshot.find? (fun p => some p.id == member.doorflowPersonId) with
    | some _ =>
      st.pushMatched { member := member, personId := member.doorflowPersonId.getD 0 }
    | none =>
      let st1 :=
        if dryRun then st
        else (st.addEffect (.storeWrite member.id none)).modifyStore
          (fun s => storeUpdate s member.id none)
      tryMatchMember env createMissing dryRun emailIndex tmap member (env.photoOf member) st1
  else
    tryMatchMember env createMissing dryRun emailIndex tmap member (env.photoOf member) st

/-- `POST /api/members/sync` (route.ts lines 59-154) after the loads:
build the two lookup maps from the loaded teams and the fetched people
snapshot, then process every loaded member in order.  `nextId0` seeds the
remote side's id allocator for created people. -/
def synchronize (env : Env) (createMissing dryRun : Bool)
    (members : List Member) (teams : List Team)
    (remotePeople : List Person) (nextId0 : Nat) : SyncState :=
  let tmap := teamToGroupEntries teams
  let emailIndex := emailIndexEntries remotePeople
  members.foldl
    (processMember env createMissing dryRun remotePeople emailIndex tmap)
    { store := members, remote := remotePeople, nextId := nextId0 }

/-- The member ids reported across the four result buckets, in bucket
order. -/
def SyncResult.bucketIds (r : SyncResult) : List String :=
  r.matched.map (fun e => e.member.id) ++ r.created.map (fun e => e.member.id)
    ++ r.unmatched.map Member.id ++ r.errors.map (fun e => e.member.id)

/-- The four bucket sizes of a result. -/
def SyncResult.bucketSizes (r : SyncResult) : Nat × Nat × Nat × Nat :=
  (r.matched.length, r.created.length, r.unmatched.length, r.errors.length)

/-- Find a member record by id in a store snapshot. -/
def storeLookup (store : List Member) (mid : String) : Option Member :=
  store.find? (fun m => m.id == mid)

/-- A member whose stored link is truthy and refers to a person present
in the fetched snapshot (the branch route.ts lines 109-118 short-circuits
on). -/
def linkedValid (snapshot : List Person) (m : Member) : Bool :=
  numTruthy m.doorflowPersonId
    && (snapshot.find? (fun p => some p.id == m.doorflowPersonId)).isSome

/-- A reported `matched`/`created` entry is consistent with a state: the
store holds a record with that member id whose link field is the reported
person id, the person id exists in the remote directory, and it is
nonzero (so a later run treats the link as set). -/
def entryGood (st : SyncState) (e : MatchEntry) : Prop :=
  (∃ m0, storeLookup st.store e.member.id = some m0
    ∧ m0.doorflowPersonId = some e.personId)
  ∧ e.personId ∈ st.remote.map Person.id
  ∧ e.personId ≠ 0

/-! Concrete fixtures used by witnesses and counterexamples. -/

/-- An environment in which every remote call succeeds and no member has a
photo. -/
def envOK : Env :=
  { photoOf := fun _ => none
    createFail := fun _ => none
    updateFail := fun _ => false }

/-- A plain unlinked member. -/
def mw1 : Member :=
  { id := "m1", firstName := "Ada", lastName := "L", email := "a@x.com" }

/-- A member whose stored link is the number 0 (JavaScript-falsy). -/
def mz : Member :=
  { id := "mz", firstName := "Zed", lastName := "Q", email := "z@x.com"
    doorflowPersonId := some 0 }

/-- A member whose stored link is a dangling nonzero id. -/
def ms : Member :=
  { id := "ms", firstName := "Sam", lastName := "R", email := "s@x.com"
    doorflowPersonId := some 5 }

/-- An initial state holding only the stale-linked member. -/
def stW : SyncState :=
  { store := [ms], remote := [], nextId := 1 }

/-- A team mapped to remote group 1. -/
def tA : Team := { id := "t1", name := "Eng", doorflowGroupId := some 1 }

/-- A team mapped to remote group 2. -/
def tB : Team := { id := "t2", name := "Ops", doorflowGroupId := some 2 }

/-- An unmapped team. -/
def tU : Team := { id := "t3", name := "Misc" }

/-- A member belonging to the two mapped teams and the unmapped one. -/
def mTeams : Member :=
  { id := "mt", firstName := "Tia", lastName := "M", email := "t@x.com"
    teamIds := ["t1", "t2", "t3"] }

/-- A member whose stored link is the number 0 while a remote person with
id 0 exists. -/
def m0 : Member :=
  { id := "m0", firstName := "Nil", lastName := "O", email := "p@x.com"
    doorflowPersonId := some 0 }

/-- A remote person with id 0 and the email of `m0`. -/
def p0 : Person := { id := 0, email := some "p@x.com" }

/-- A remote person with id 9. -/
def p9 : Person := { id := 9, email := some "l@x.com" }

/-- A member validly linked to person 9. -/
def mL : Member :=
  { id := "ml", firstName := "Lee", lastName := "K", email := "l@x.com"
    doorflowPersonId := some 9 }

/-- An environment in which every `createPerson` call throws an `Error`
with message "boom". -/
def envFail : Env :=
  { photoOf := fun _ => none
    createFail := fun _ => some (some "boom")
    updateFail := fun _ => false }

/-- An environment in which exactly the `createPerson` call for the
member with id "mb5" throws an `Error` with message "boom". -/
def envB : Env :=
  { photoOf := fun _ => none
    createFail := fun inp => if inp.systemId == some "mb5" then some (some "boom") else none
    updateFail := fun _ => false }

/-- First member of the three-member isolation scenario. -/
def ma5 : Member := { id := "ma5", firstName := "Al", lastName := "A", email := "a5@x.com" }

/-- Second member of the three-member isolation scenario (its remote
creation fails). -/
def mb5 : Member := { id := "mb5", firstName := "Bo", lastName := "B", email := "b5@x.com" }

/-- Third member of the three-member isolation scenario. -/
def mc5 : Member := { id := "mc5", firstName := "Cy", lastName := "C", email := "c5@x.com" }

/-- A remote person with the email of `mw1`. -/
def paw : Person := { id := 10, email := some "a@x.com" }

/-- An environment in which every `updatePerson` call fails and every
`createPerson` call succeeds. -/
def envU : Env :=
  { photoOf := fun _ => none
    createFail := fun _ => none
    updateFail := fun _ => true }

end MemberSync

namespace MemberSync

theorem count_cons_ite (x i : String) (rest : List String) :
    List.count i (x :: rest) = List.count i rest + (if x = i then 1 else 0) := by
  by_cases h : x = i
  · simp [List.count_cons, h]
  · simp [List.count_cons, h, Ne.symm h]

theorem bucketIds_count_tryMatchMember (env : Env) (cm dr : Bool)
    (emailIndex : List (String × Person)) (tmap : List (String × Nat))
    (member : Member) (photo : Option String) (st : SyncState) (i : String) :
    ((tryMatchMember env cm dr emailIndex tmap member photo st).results.bucketIds).count i
      = (st.results.bucketIds).count i + (if member.id = i then 1 else 0) := by
  rw [tryMatchMember]
  dsimp only
  split
  · simp [SyncState.pushMatched, SyncState.addEffect, SyncState.modifyStore,
      SyncResult.bucketIds, apply_ite SyncState.results, List.count_append,
      count_cons_ite]
    omega
  · split
    · split
      · simp [SyncState.pushCreated, SyncResult.bucketIds, List.count_append,
          count_cons_ite]
        omega
      · split
        · simp [SyncState.pushErrors, SyncState.addEffect, SyncResult.bucketIds,
            List.count_append, count_cons_ite]
          omega
        · simp [SyncState.pushCreated, SyncState.addEffect, SyncState.modifyStore,
            SyncResult.bucketIds, List.count_append, count_cons_ite]
          omega
    · simp [SyncState.pushUnmatched, SyncResult.bucketIds, List.count_append,
        count_cons_ite]
      omega

theorem bucketIds_count_processMember (env : Env) (cm dr : Bool)
    (snapshot : List Person) (emailIndex : List (String × Person))
    (tmap : List (String × Nat)) (st : SyncState) (member : Member) (i : String) :
    ((processMember env cm dr snapshot emailIndex tmap st member).results.bucketIds).count i
      = (st.results.bucketIds).count i + (if member.id = i then 1 else 0) := by
  rw [processMember]
  dsimp only
  split
  · split
    · simp [SyncState.pushMatched, SyncResult.bucketIds, List.count_append,
        count_cons_ite]
      omega
    · rw [bucketIds_count_tryMatchMember]
      simp [SyncState.addEffect, SyncState.modifyStore, apply_ite SyncState.results]
  · rw [bucketIds_count_tryMatchMember]

theorem bucketIds_count_foldl (env : Env) (cm dr : Bool)
    (snapshot : List Person) (emailIndex : List (String × Person))
    (tmap : List (String × Nat)) (members : List Member) (st : SyncState) (i : String) :
    ((members.foldl (processMember env cm dr snapshot emailIndex tmap) st).results.bucketIds).count i
      = (st.results.bucketIds).count i + (members.map Member.id).count i := by
  induction members generalizing st with
  | nil => simp
  | cons m rest ih =>
    simp only [List.foldl_cons, List.map_cons]
    rw [ih, bucketIds_count_processMember, count_cons_ite]
    omega

theorem bucketIds_count_synchronize (env : Env) (cm dr : Bool)
    (members : List Member) (teams : List Team) (ppl : List Person)
    (nid : Nat) (i : String) :
    ((synchronize env cm dr members teams ppl nid).results.bucketIds).count i
      = (members.map Member.id).count i := by
  rw [synchronize]
  rw [bucketIds_count_foldl]
  simp [SyncResult.bucketIds]

theorem find?_filter_and (l : List Person) (φ q : Person → Bool) :
    (l.filter φ).find? q = l.find? (fun a => φ a && q a) := by
  induction l with
  | nil => rfl
  | cons a t ih =>
    by_cases hφ : φ a <;> by_cases hq : q a <;>
      simp [List.filter_cons, List.find?_cons, hφ, hq, ih]

theorem find?_keyed_map (l : List Person) (f : Person → String) (key : String) :
    ((l.map (fun p => (f p, p))).find? (fun e => e.1 == key)).map (fun e => e.2)
      = l.find? (fun p => f p == key) := by
  induction l with
  | nil => rfl
  | cons a t ih =>
    cases h : (f a == key) <;>
      simp only [List.map_cons, List.find?_cons, h, Option.map_some] <;>
      first
        | exact ih
        | rfl

/-- The `peopleByEmail.get` lookup, characterized on the fetched people
list directly: the last person in fetch order with a truthy email whose
lower-cased email equals the key. -/
theorem jsMapGet_emailIndex (ppl : List Person) (key : String) :
    jsMapGet (emailIndexEntries ppl) key
      = ppl.reverse.find?
          (fun p => strTruthy p.email && (toLowerCase (p.email.getD "") == key)) := by
  unfold jsMapGet emailIndexEntries
  rw [← List.map_reverse, find?_keyed_map, ← List.filter_reverse, find?_filter_and]

theorem storeLookup_storeUpdate_ne (s : List Member) (mid mid' : String)
    (v : Option Nat) (h : mid ≠ mid') :
    storeLookup (storeUpdate s mid' v) mid = storeLookup s mid := by
  induction s with
  | nil => rfl
  | cons a t ih =>
    rw [storeUpdate]
    by_cases ha : a.id = mid'
    · rw [if_pos ha]
      have hne : a.id ≠ mid := by
        rw [ha]
        exact fun hc => h hc.symm
      simp [storeLookup, List.find?_cons, hne]
    · rw [if_neg ha]
      by_cases hm : a.id = mid
      · simp [storeLookup, List.find?_cons, hm]
      · have hf : (a.id == mid) = false := by simpa using hm
        simp only [storeLookup, List.find?_cons, hf]
        exact ih

theorem storeLookup_storeUpdate_self (s : List Member) (mid : String)
    (v : Option Nat) (m0 : Member) (h : storeLookup s mid = some m0) :
    storeLookup (storeUpdate s mid v) mid = some { m0 with doorflowPersonId := v } := by
  induction s with
  | nil => exact absurd h (by simp [storeLookup])
  | cons a t ih =>
    rw [storeUpdate]
    by_cases ha : a.id = mid
    · rw [if_pos ha]
      rw [storeLookup, List.find?_cons, show (a.id == mid) = true by simpa using ha] at h
      simp only [Option.some.injEq] at h
      rw [← h]
      simp [storeLookup, List.find?_cons, ha]
    · rw [if_neg ha]
      rw [storeLookup, List.find?_cons, show (a.id == mid) = false by simpa using ha] at h
      rw [storeLookup, List.find?_cons, show (a.id == mid) = false by simpa using ha]
      exact ih h

theorem storeLookup_id (s : List Member) (mid : String) (m0 : Member)
    (h : storeLookup s mid = some m0) : m0.id = mid := by
  rw [storeLookup] at h
  have hb := List.find?_some h
  simp only [] at hb
  exact eq_of_beq hb

theorem storeLookup_mem (s : List Member) (mid : String) (m0 : Member)
    (h : storeLookup s mid = some m0) : m0 ∈ s := by
  rw [storeLookup] at h
  exact List.mem_of_find?_eq_some h

theorem storeLookup_self_of_nodup (s : List Member) (m : Member)
    (hnd : (s.map Member.id).Nodup) (hm : m ∈ s) :
    storeLookup s m.id = some m := by
  induction s with
  | nil => exact absurd hm (by simp)
  | cons a t ih =>
    rw [List.map_cons, List.nodup_cons] at hnd
    rcases List.mem_cons.mp hm with h | h
    · rw [← h]
      simp [storeLookup, List.find?_cons]
    · have hne : (a.id == m.id) = false := by
        have : a.id ≠ m.id := by
          intro hc
          apply hnd.1
          rw [hc]
          exact List.mem_map_of_mem Member.id h
        simpa using this
      rw [storeLookup, List.find?_cons, hne]
      exact ih hnd.2 h

theorem storeUpdate_map_id (s : List Member) (mid : String) (v : Option Nat) :
    (storeUpdate s mid v).map Member.id = s.map Member.id := by
  induction s with
  | nil => rfl
  | cons a t ih =>
    rw [storeUpdate]
    by_cases ha : a.id = mid
    · rw [if_pos ha]
      simp
    · rw [if_neg ha]
      simp [ih]

theorem remoteUpdate_map_id (r : List Person) (pid : Nat) (inp : UpdateInput) :
    (remoteUpdate r pid inp).map Person.id = r.map Person.id := by
  rw [remoteUpdate, List.map_map]
  apply List.map_congr_left
  intro p hp
  by_cases h : p.id = pid <;> simp [h, applyUpdate]

theorem memberEmailMatch_sound (ppl : List Person) (m : Member) (p : Person)
    (hp : memberEmailMatch (emailIndexEntries ppl) m = some p) :
    p ∈ ppl ∧ strTruthy p.email = true
      ∧ toLowerCase (p.email.getD "") = toLowerCase m.email := by
  rw [memberEmailMatch] at hp
  by_cases h : m.email = ""
  · rw [if_pos h] at hp
    exact absurd hp (by simp)
  · rw [if_neg h, jsMapGet_emailIndex] at hp
    have hmem := List.mem_of_find?_eq_some hp
    have hpred := List.find?_some hp
    rw [Bool.and_eq_true] at hpred
    exact ⟨List.mem_reverse.mp hmem, hpred.1, eq_of_beq hpred.2⟩

theorem tryMatchMember_shape (env : Env) (cm dr : Bool)
    (emailIndex : List (String × Person)) (tmap : List (String × Nat))
    (member : Member) (photo : Option String) (st : SyncState) :
    (∃ p, memberEmailMatch emailIndex member = some p ∧ dr = true ∧
      tryMatchMember env cm dr emailIndex tmap member photo st
        = st.pushMatched { member := { member with doorflowPersonId := some p.id }, personId := p.id })
    ∨ (∃ p, memberEmailMatch emailIndex member = some p ∧ dr = false ∧
        (!(getGroupIdsForMember member tmap).isEmpty || strTruthy photo) = false ∧
        tryMatchMember env cm dr emailIndex tmap member photo st
          = ((st.addEffect (.storeWrite member.id (some p.id))).modifyStore
              (fun s => storeUpdate s member.id (some p.id))).pushMatched
              { member := { member with doorflowPersonId := some p.id }, personId := p.id })
    ∨ (∃ p, memberEmailMatch emailIndex member = some p ∧ dr = false ∧
        (!(getGroupIdsForMember member tmap).isEmpty || strTruthy photo) = true ∧
        env.updateFail p.id = true ∧
        tryMatchMember env cm dr emailIndex tmap member photo st
          = (((st.addEffect (.storeWrite member.id (some p.id))).modifyStore
                (fun s => storeUpdate s member.id (some p.id))).addEffect
              (.personUpdate p.id
                { groupIds := if (getGroupIdsForMember member tmap).isEmpty then none
                    else some (getGroupIdsForMember member tmap)
                  imageBase64 := if strTruthy photo then photo else none })).pushMatched
              { member := { member with doorflowPersonId := some p.id }, personId := p.id })
    ∨ (∃ p, memberEmailMatch emailIndex member = some p ∧ dr = false ∧
        (!(getGroupIdsForMember member tmap).isEmpty || strTruthy photo) = true ∧
        env.updateFail p.id = false ∧
        tryMatchMember env cm dr emailIndex tmap member photo st
          = ({ (((st.addEffect (.storeWrite member.id (some p.id))).modifyStore
                  (fun s => storeUpdate s member.id (some p.id))).addEffect
                (.personUpdate p.id
                  { groupIds := if (getGroupIdsForMember member tmap).isEmpty then none
                      else some (getGroupIdsForMember member tmap)
                    imageBase64 := if strTruthy photo then photo else none })) with
              remote := remoteUpdate st.remote p.id
                { groupIds := if (getGroupIdsForMember member tmap).isEmpty then none
                    else some (getGroupIdsForMember member tmap)
                  imageBase64 := if strTruthy photo then photo else none } }).pushMatched
              { member := { member with doorflowPersonId := some p.id }, personId := p.id })
    ∨ (memberEmailMatch emailIndex member = none ∧ cm = true ∧ dr = true ∧
        tryMatchMember env cm dr emailIndex tmap member photo st
          = st.pushCreated { member := member, personId := 0 })
    ∨ (∃ e, memberEmailMatch emailIndex member = none ∧ cm = true ∧ dr = false ∧
        env.createFail
          (createInputOfMember member (getGroupIdsForMember member tmap) photo) = some e ∧
        tryMatchMember env cm dr emailIndex tmap member photo st
          = (st.addEffect (.personCreate
              (createInputOfMember member (getGroupIdsForMember member tmap) photo))).pushErrors
              { member := member, error := e.getD "Failed to create person" })
    ∨ (memberEmailMatch emailIndex member = none ∧ cm = true ∧ dr = false ∧
        env.createFail
          (createInputOfMember member (getGroupIdsForMember member tmap) photo) = none ∧
        tryMatchMember env cm dr emailIndex tmap member photo st
          = ((({ (st.addEffect (.personCreate
                  (createInputOfMember member (getGroupIdsForMember member tmap) photo))) with
                remote := st.remote ++ [personOfInput st.nextId
                  (createInputOfMember member (getGroupIdsForMember member tmap) photo)]
                nextId := st.nextId + 1 }).addEffect
              (.storeWrite member.id (some st.nextId))).modifyStore
              (fun s => storeUpdate s member.id (some st.nextId))).pushCreated
              { member := { member with doorflowPersonId := some st.nextId }, personId := st.nextId })
    ∨ (memberEmailMatch emailIndex member = none ∧ cm = false ∧
        tryMatchMember env cm dr emailIndex tmap member photo st
          = st.pushUnmatched member) := by
  rw [tryMatchMember]
  dsimp only
  cases hE : memberEmailMatch emailIndex member with
  | some p =>
    dsimp only
    cases hdr : dr with
    | true => exact Or.inl ⟨p, rfl, rfl, rfl⟩
    | false =>
      cases hG : (!(getGroupIdsForMember member tmap).isEmpty || strTruthy photo) with
      | false => exact Or.inr (Or.inl ⟨p, rfl, rfl, rfl, rfl⟩)
      | true =>
        cases hU : env.updateFail p.id with
        | true => exact Or.inr (Or.inr (Or.inl ⟨p, rfl, rfl, rfl, hU, rfl⟩))
        | false => exact Or.inr (Or.inr (Or.inr (Or.inl ⟨p, rfl, rfl, rfl, hU, rfl⟩)))
  | none =>
    dsimp only
    cases hcm : cm with
    | false =>
      exact Or.inr (Or.inr (Or.inr (Or.inr (Or.inr (Or.inr (Or.inr ⟨rfl, rfl, rfl⟩))))))
    | true =>
      cases hdr : dr with
      | true =>
        exact Or.inr (Or.inr (Or.inr (Or.inr (Or.inl ⟨rfl, rfl, rfl, rfl⟩))))
      | false =>
        cases hF : env.createFail
            (createInputOfMember member (getGroupIdsForMember member tmap) photo) with
        | some e =>
          exact Or.inr (Or.inr (Or.inr (Or.inr (Or.inr (Or.inl ⟨e, rfl, rfl, rfl, rfl, rfl⟩)))))
        | none =>
          exact Or.inr (Or.inr (Or.inr (Or.inr (Or.inr (Or.inr (Or.inl ⟨rfl, rfl, rfl, rfl, rfl⟩))))))

theorem processMember_shape (env : Env) (cm dr : Bool)
    (snapshot : List Person) (emailIndex : List (String × Person))
    (tmap : List (String × Nat)) (st : SyncState) (m : Member) :
    (∃ n, m.doorflowPersonId = some n ∧ numTruthy m.doorflowPersonId = true ∧
      (snapshot.find? (fun p => some p.id == m.doorflowPersonId)).isSome = true ∧
      processMember env cm dr snapshot emailIndex tmap st m
        = st.pushMatched { member := m, personId := n })
    ∨ (numTruthy m.doorflowPersonId = true ∧
        snapshot.find? (fun p => some p.id == m.doorflowPersonId) = none ∧ dr = true ∧
        processMember env cm dr snapshot emailIndex tmap st m
          = tryMatchMember env cm dr emailIndex tmap m (env.photoOf m) st)
    ∨ (numTruthy m.doorflowPersonId = true ∧
        snapshot.find? (fun p => some p.id == m.doorflowPersonId) = none ∧ dr = false ∧
        processMember env cm dr snapshot emailIndex tmap st m
          = tryMatchMember env cm dr emailIndex tmap m (env.photoOf m)
              ((st.addEffect (.storeWrite m.id none)).modifyStore
                (fun s => storeUpdate s m.id none)))
    ∨ (numTruthy m.doorflowPersonId = false ∧
        processMember env cm dr snapshot emailIndex tmap st m
          = tryMatchMember env cm dr emailIndex tmap m (env.photoOf m) st) := by
  rw [processMember]
  dsimp only
  cases hT : numTruthy m.doorflowPersonId with
  | false =>
    exact Or.inr (Or.inr (Or.inr ⟨rfl, rfl⟩))
  | true =>
    cases hF : snapshot.find? (fun p => some p.id == m.doorflowPersonId) with
    | some q =>
      cases hid : m.doorflowPersonId with
      | none =>
        rw [hid] at hT
        exact absurd hT (by simp [numTruthy])
      | some n =>
        exact Or.inl ⟨n, rfl, rfl, rfl, rfl⟩
    | none =>
      cases hdr : dr with
      | true => exact Or.inr (Or.inl ⟨rfl, rfl, rfl, rfl⟩)
      | false => exact Or.inr (Or.inr (Or.inl ⟨rfl, rfl, rfl, rfl⟩))

theorem tryMatchMember_store_frame (env : Env) (cm dr : Bool)
    (emailIndex : List (String × Person)) (tmap : List (String × Nat))
    (member : Member) (photo : Option String) (st : SyncState) (mid : String)
    (hne : mid ≠ member.id) :
    storeLookup (tryMatchMember env cm dr emailIndex tmap member photo st).store mid
      = storeLookup st.store mid := by
  rcases tryMatchMember_shape env cm dr emailIndex tmap member photo st with
    ⟨p, hE, hdr, hEq⟩ | ⟨p, hE, hdr, hG, hEq⟩ | ⟨p, hE, hdr, hG, hU, hEq⟩ |
    ⟨p, hE, hdr, hG, hU, hEq⟩ | ⟨hE, hcm, hdr, hEq⟩ | ⟨e, hE, hcm, hdr, hF, hEq⟩ |
    ⟨hE, hcm, hdr, hF, hEq⟩ | ⟨hE, hcm, hEq⟩ <;>
  rw [hEq] <;>
  simp [SyncState.pushMatched, SyncState.pushCreated, SyncState.pushUnmatched,
    SyncState.pushErrors, SyncState.addEffect, SyncState.modifyStore,
    storeLookup_storeUpdate_ne _ _ _ _ hne]

theorem tryMatchMember_store_map_id (env : Env) (cm dr : Bool)
    (emailIndex : List (String × Person)) (tmap : List (String × Nat))
    (member : Member) (photo : Option String) (st : SyncState) :
    (tryMatchMember env cm dr emailIndex tmap member photo st).store.map Member.id
      = st.store.map Member.id := by
  rcases tryMatchMember_shape env cm dr emailIndex tmap member photo st with
    ⟨p, hE, hdr, hEq⟩ | ⟨p, hE, hdr, hG, hEq⟩ | ⟨p, hE, hdr, hG, hU, hEq⟩ |
    ⟨p, hE, hdr, hG, hU, hEq⟩ | ⟨hE, hcm, hdr, hEq⟩ | ⟨e, hE, hcm, hdr, hF, hEq⟩ |
    ⟨hE, hcm, hdr, hF, hEq⟩ | ⟨hE, hcm, hEq⟩ <;>
  rw [hEq] <;>
  simp [SyncState.pushMatched, SyncState.pushCreated, SyncState.pushUnmatched,
    SyncState.pushErrors, SyncState.addEffect, SyncState.modifyStore,
    storeUpdate_map_id]

theorem tryMatchMember_remote_ids (env : Env) (cm dr : Bool)
    (emailIndex : List (String × Person)) (tmap : List (String × Nat))
    (member : Member) (photo : Option String) (st : SyncState) (pid : Nat)
    (hp : pid ∈ st.remote.map Person.id) :
    pid ∈ (tryMatchMember env cm dr emailIndex tmap member photo st).remote.map Person.id := by
  rcases tryMatchMember_shape env cm dr emailIndex tmap member photo st with
    ⟨p, hE, hdr, hEq⟩ | ⟨p, hE, hdr, hG, hEq⟩ | ⟨p, hE, hdr, hG, hU, hEq⟩ |
    ⟨p, hE, hdr, hG, hU, hEq⟩ | ⟨hE, hcm, hdr, hEq⟩ | ⟨e, hE, hcm, hdr, hF, hEq⟩ |
    ⟨hE, hcm, hdr, hF, hEq⟩ | ⟨hE, hcm, hEq⟩ <;>
  rw [hEq] <;>
  simp only [SyncState.pushMatched, SyncState.pushCreated, SyncState.pushUnmatched,
    SyncState.pushErrors, SyncState.addEffect, SyncState.modifyStore,
    remoteUpdate_map_id, List.map_append] <;>
  first
    | exact hp
    | exact List.mem_append_left _ hp

theorem tryMatchMember_nextId_nz (env : Env) (cm dr : Bool)
    (emailIndex : List (String × Person)) (tmap : List (String × Nat))
    (member : Member) (photo : Option String) (st : SyncState)
    (h : st.nextId ≠ 0) :
    (tryMatchMember env cm dr emailIndex tmap member photo st).nextId ≠ 0 := by
  rcases tryMatchMember_shape env cm dr emailIndex tmap member photo st with
    ⟨p, hE, hdr, hEq⟩ | ⟨p, hE, hdr, hG, hEq⟩ | ⟨p, hE, hdr, hG, hU, hEq⟩ |
    ⟨p, hE, hdr, hG, hU, hEq⟩ | ⟨hE, hcm, hdr, hEq⟩ | ⟨e, hE, hcm, hdr, hF, hEq⟩ |
    ⟨hE, hcm, hdr, hF, hEq⟩ | ⟨hE, hcm, hEq⟩ <;>
  rw [hEq] <;>
  simp [SyncState.pushMatched, SyncState.pushCreated, SyncState.pushUnmatched,
    SyncState.pushErrors, SyncState.addEffect, SyncState.modifyStore, h]

theorem tryMatchMember_matched_mono (env : Env) (cm dr : Bool)
    (emailIndex : List (String × Person)) (tmap : List (String × Nat))
    (member : Member) (photo : Option String) (st : SyncState) (x : MatchEntry)
    (h : x ∈ st.results.matched) :
    x ∈ (tryMatchMember env cm dr emailIndex tmap member photo st).results.matched := by
  rcases tryMatchMember_shape env cm dr emailIndex tmap member photo st with
    ⟨p, hE, hdr, hEq⟩ | ⟨p, hE, hdr, hG, hEq⟩ | ⟨p, hE, hdr, hG, hU, hEq⟩ |
    ⟨p, hE, hdr, hG, hU, hEq⟩ | ⟨hE, hcm, hdr, hEq⟩ | ⟨e, hE, hcm, hdr, hF, hEq⟩ |
    ⟨hE, hcm, hdr, hF, hEq⟩ | ⟨hE, hcm, hEq⟩ <;>
  rw [hEq] <;>
  simp [SyncState.pushMatched, SyncState.pushCreated, SyncState.pushUnmatched,
    SyncState.pushErrors, SyncState.addEffect, SyncState.modifyStore, h]

theorem tryMatchMember_created_mono (env : Env) (cm dr : Bool)
    (emailIndex : List (String × Person)) (tmap : List (String × Nat))
    (member : Member) (photo : Option String) (st : SyncState) (x : MatchEntry)
    (h : x ∈ st.results.created) :
    x ∈ (tryMatchMember env cm dr emailIndex tmap member photo st).results.created := by
  rcases tryMatchMember_shape env cm dr emailIndex tmap member photo st with
    ⟨p, hE, hdr, hEq⟩ | ⟨p, hE, hdr, hG, hEq⟩ | ⟨p, hE, hdr, hG, hU, hEq⟩ |
    ⟨p, hE, hdr, hG, hU, hEq⟩ | ⟨hE, hcm, hdr, hEq⟩ | ⟨e, hE, hcm, hdr, hF, hEq⟩ |
    ⟨hE, hcm, hdr, hF, hEq⟩ | ⟨hE, hcm, hEq⟩ <;>
  rw [hEq] <;>
  simp [SyncState.pushMatched, SyncState.pushCreated, SyncState.pushUnmatched,
    SyncState.pushErrors, SyncState.addEffect, SyncState.modifyStore, h]

theorem tryMatchMember_errors_mono (env : Env) (cm dr : Bool)
    (emailIndex : List (String × Person)) (tmap : List (String × Nat))
    (member : Member) (photo : Option String) (st : SyncState) (x : ErrorEntry)
    (h : x ∈ st.results.errors) :
    x ∈ (tryMatchMember env cm dr emailIndex tmap member photo st).results.errors := by
  rcases tryMatchMember_shape env cm dr emailIndex tmap member photo st with
    ⟨p, hE, hdr, hEq⟩ | ⟨p, hE, hdr, hG, hEq⟩ | ⟨p, hE, hdr, hG, hU, hEq⟩ |
    ⟨p, hE, hdr, hG, hU, hEq⟩ | ⟨hE, hcm, hdr, hEq⟩ | ⟨e, hE, hcm, hdr, hF, hEq⟩ |
    ⟨hE, hcm, hdr, hF, hEq⟩ | ⟨hE, hcm, hEq⟩ <;>
  rw [hEq] <;>
  simp [SyncState.pushMatched, SyncState.pushCreated, SyncState.pushUnmatched,
    SyncState.pushErrors, SyncState.addEffect, SyncState.modifyStore, h]

theorem tryMatchMember_trace_create (env : Env) (cm dr : Bool)
    (emailIndex : List (String × Person)) (tmap : List (String × Nat))
    (member : Member) (photo : Option String) (st : SyncState) (inp : PersonInput)
    (h : Effect.personCreate inp
        ∈ (tryMatchMember env cm dr emailIndex tmap member photo st).trace) :
    Effect.personCreate inp ∈ st.trace
      ∨ inp = createInputOfMember member (getGroupIdsForMember member tmap) photo := by
  rcases tryMatchMember_shape env cm dr emailIndex tmap member photo st with
    ⟨p, hE, hdr, hEq⟩ | ⟨p, hE, hdr, hG, hEq⟩ | ⟨p, hE, hdr, hG, hU, hEq⟩ |
    ⟨p, hE, hdr, hG, hU, hEq⟩ | ⟨hE, hcm, hdr, hEq⟩ | ⟨e, hE, hcm, hdr, hF, hEq⟩ |
    ⟨hE, hcm, hdr, hF, hEq⟩ | ⟨hE, hcm, hEq⟩ <;>
  rw [hEq] at h <;>
  simp [SyncState.pushMatched, SyncState.pushCreated, SyncState.pushUnmatched,
    SyncState.pushErrors, SyncState.addEffect, SyncState.modifyStore,
    List.mem_append, List.mem_singleton] at h <;>
  tauto

theorem processMember_store_frame (env : Env) (cm dr : Bool)
    (snapshot : List Person) (emailIndex : List (String × Person))
    (tmap : List (String × Nat)) (st : SyncState) (m : Member) (mid : String)
    (hne : mid ≠ m.id) :
    storeLookup (processMember env cm dr snapshot emailIndex tmap st m).store mid
      = storeLookup st.store mid := by
  rcases processMember_shape env cm dr snapshot emailIndex tmap st m with
    ⟨n, hdp, hT, hS, hEq⟩ | ⟨hT, hS, hdr, hEq⟩ | ⟨hT, hS, hdr, hEq⟩ | ⟨hT, hEq⟩ <;>
  rw [hEq]
  · rfl
  · exact tryMatchMember_store_frame env cm dr emailIndex tmap m (env.photoOf m) st mid hne
  · rw [tryMatchMember_store_frame env cm dr emailIndex tmap m (env.photoOf m) _ mid hne]
    simp [SyncState.addEffect, SyncState.modifyStore,
      storeLookup_storeUpdate_ne _ _ _ _ hne]
  · exact tryMatchMember_store_frame env cm dr emailIndex tmap m (env.photoOf m) st mid hne

theorem processMember_store_map_id (env : Env) (cm dr : Bool)
    (snapshot : List Person) (emailIndex : List (String × Person))
    (tmap : List (String × Nat)) (st : SyncState) (m : Member) :
    (processMember env cm dr snapshot emailIndex tmap st m).store.map Member.id
      = st.store.map Member.id := by
  rcases processMember_shape env cm dr snapshot emailIndex tmap st m with
    ⟨n, hdp, hT, hS, hEq⟩ | ⟨hT, hS, hdr, hEq⟩ | ⟨hT, hS, hdr, hEq⟩ | ⟨hT, hEq⟩ <;>
  rw [hEq]
  · rfl
  · exact tryMatchMember_store_map_id env cm dr emailIndex tmap m (env.photoOf m) st
  · rw [tryMatchMember_store_map_id]
    simp [SyncState.addEffect, SyncState.modifyStore, storeUpdate_map_id]
  · exact tryMatchMember_store_map_id env cm dr emailIndex tmap m (env.photoOf m) st

theorem processMember_remote_ids (env : Env) (cm dr : Bool)
    (snapshot : List Person) (emailIndex : List (String × Person))
    (tmap : List (String × Nat)) (st : SyncState) (m : Member) (pid : Nat)
    (hp : pid ∈ st.remote.map Person.id) :
    pid ∈ (processMember env cm dr snapshot emailIndex tmap st m).remote.map Person.id := by
  rcases processMember_shape env cm dr snapshot emailIndex tmap st m with
    ⟨n, hdp, hT, hS, hEq⟩ | ⟨hT, hS, hdr, hEq⟩ | ⟨hT, hS, hdr, hEq⟩ | ⟨hT, hEq⟩ <;>
  rw [hEq]
  · exact hp
  · exact tryMatchMember_remote_ids env cm dr emailIndex tmap m (env.photoOf m) st pid hp
  · exact tryMatchMember_remote_ids env cm dr emailIndex tmap m (env.photoOf m) _ pid hp
  · exact tryMatchMember_remote_ids env cm dr emailIndex tmap m (env.photoOf m) st pid hp

theorem processMember_nextId_nz (env : Env) (cm dr : Bool)
    (snapshot : List Person) (emailIndex : List (String × Person))
    (tmap : List (String × Nat)) (st : SyncState) (m : Member)
    (h : st.nextId ≠ 0) :
    (processMember env cm dr snapshot emailIndex tmap st m).nextId ≠ 0 := by
  rcases processMember_shape env cm dr snapshot emailIndex tmap st m with
    ⟨n, hdp, hT, hS, hEq⟩ | ⟨hT, hS, hdr, hEq⟩ | ⟨hT, hS, hdr, hEq⟩ | ⟨hT, hEq⟩ <;>
  rw [hEq]
  · exact h
  · exact tryMatchMember_nextId_nz env cm dr emailIndex tmap m (env.photoOf m) st h
  · exact tryMatchMember_nextId_nz env cm dr emailIndex tmap m (env.photoOf m) _ h
  · exact tryMatchMember_nextId_nz env cm dr emailIndex tmap m (env.photoOf m) st h

theorem processMember_matched_mono (env : Env) (cm dr : Bool)
    (snapshot : List Person) (emailIndex : List (String × Person))
    (tmap : List (String × Nat)) (st : SyncState) (m : Member) (x : MatchEntry)
    (h : x ∈ st.results.matched) :
    x ∈ (processMember env cm dr snapshot emailIndex tmap st m).results.matched := by
  rcases processMember_shape env cm dr snapshot emailIndex tmap st m with
    ⟨n, hdp, hT, hS, hEq⟩ | ⟨hT, hS, hdr, hEq⟩ | ⟨hT, hS, hdr, hEq⟩ | ⟨hT, hEq⟩ <;>
  rw [hEq]
  · simp [SyncState.pushMatched, h]
  · exact tryMatchMember_matched_mono env cm dr emailIndex tmap m (env.photoOf m) st x h
  · exact tryMatchMember_matched_mono env cm dr emailIndex tmap m (env.photoOf m) _ x h
  · exact tryMatchMember_matched_mono env cm dr emailIndex tmap m (env.photoOf m) st x h

theorem processMember_created_mono (env : Env) (cm dr : Bool)
    (snapshot : List Person) (emailIndex : List (String × Person))
    (tmap : List (String × Nat)) (st : SyncState) (m : Member) (x : MatchEntry)
    (h : x ∈ st.results.created) :
    x ∈ (processMember env cm dr snapshot emailIndex tmap st m).results.created := by
  rcases processMember_shape env cm dr snapshot emailIndex tmap st m with
    ⟨n, hdp, hT, hS, hEq⟩ | ⟨hT, hS, hdr, hEq⟩ | ⟨hT, hS, hdr, hEq⟩ | ⟨hT, hEq⟩ <;>
  rw [hEq]
  · simp [SyncState.pushMatched, h]
  · exact tryMatchMember_created_mono env cm dr emailIndex tmap m (env.photoOf m) st x h
  · exact tryMatchMember_created_mono env cm dr emailIndex tmap m (env.photoOf m) _ x h
  · exact tryMatchMember_created_mono env cm dr emailIndex tmap m (env.photoOf m) st x h

theorem processMember_errors_mono (env : Env) (cm dr : Bool)
    (snapshot : List Person) (emailIndex : List (String × Person))
    (tmap : List (String × Nat)) (st : SyncState) (m : Member) (x : ErrorEntry)
    (h : x ∈ st.results.errors) :
    x ∈ (processMember env cm dr snapshot emailIndex tmap st m).results.errors := by
  rcases processMember_shape env cm dr snapshot emailIndex tmap st m with
    ⟨n, hdp, hT, hS, hEq⟩ | ⟨hT, hS, hdr, hEq⟩ | ⟨hT, hS, hdr, hEq⟩ | ⟨hT, hEq⟩ <;>
  rw [hEq]
  · simp [SyncState.pushMatched, h]
  · exact tryMatchMember_errors_mono env cm dr emailIndex tmap m (env.photoOf m) st x h
  · exact tryMatchMember_errors_mono env cm dr emailIndex tmap m (env.photoOf m) _ x h
  · exact tryMatchMember_errors_mono env cm dr emailIndex tmap m (env.photoOf m) st x h

theorem processMember_trace_create (env : Env) (cm dr : Bool)
    (snapshot : List Person) (emailIndex : List (String × Person))
    (tmap : List (String × Nat)) (st : SyncState) (m : Member) (inp : PersonInput)
    (h : Effect.personCreate inp
        ∈ (processMember env cm dr snapshot emailIndex tmap st m).trace) :
    Effect.personCreate inp ∈ st.trace
      ∨ (inp.systemId = some m.id ∧ linkedValid snapshot m = false) := by
  rcases processMember_shape env cm dr snapshot emailIndex tmap st m with
    ⟨n, hdp, hT, hS, hEq⟩ | ⟨hT, hS, hdr, hEq⟩ | ⟨hT, hS, hdr, hEq⟩ | ⟨hT, hEq⟩
  · rw [hEq] at h
    exact Or.inl h
  · rw [hEq] at h
    rcases tryMatchMember_trace_create env cm dr emailIndex tmap m (env.photoOf m) st inp h with
      h' | h'
    · exact Or.inl h'
    · refine Or.inr ⟨by rw [h']; rfl, ?_⟩
      rw [linkedValid, hS]
      simp
  · rw [hEq] at h
    rcases tryMatchMember_trace_create env cm dr emailIndex tmap m (env.photoOf m) _ inp h with
      h' | h'
    · simp only [SyncState.addEffect, SyncState.modifyStore, List.mem_append,
        List.mem_singleton] at h'
      rcases h' with h'' | h''
      · exact Or.inl h''
      · exact absurd h'' (by simp)
    · refine Or.inr ⟨by rw [h']; rfl, ?_⟩
      rw [linkedValid, hS]
      simp
  · rw [hEq] at h
    rcases tryMatchMember_trace_create env cm dr emailIndex tmap m (env.photoOf m) st inp h with
      h' | h'
    · exact Or.inl h'
    · refine Or.inr ⟨by rw [h']; rfl, ?_⟩
      rw [linkedValid, hT]
      simp

theorem processMember_linked_eq (env : Env) (cm dr : Bool)
    (snapshot : List Person) (emailIndex : List (String × Person))
    (tmap : List (String × Nat)) (st : SyncState) (m : Member) (n : Nat)
    (hdp : m.doorflowPersonId = some n) (hnz : n ≠ 0)
    (hmem : n ∈ snapshot.map Person.id) :
    processMember env cm dr snapshot emailIndex tmap st m
      = st.pushMatched { member := m, personId := n } := by
  have hT : numTruthy m.doorflowPersonId = true := by
    rw [hdp]
    simp [numTruthy, hnz]
  have hSome : (snapshot.find? (fun p => some p.id == m.doorflowPersonId)).isSome = true := by
    obtain ⟨p, hp, hpid⟩ := List.mem_map.mp hmem
    rw [List.find?_isSome]
    exact ⟨p, hp, by rw [hdp, hpid]; simp⟩
  rcases processMember_shape env cm dr snapshot emailIndex tmap st m with
    ⟨n', hdp', _, _, hEq⟩ | ⟨_, hS, _, _⟩ | ⟨_, hS, _, _⟩ | ⟨hTf, _⟩
  · have hnn : n' = n := by
      rw [hdp] at hdp'
      exact (Option.some.injEq _ _).mp hdp'.symm
    rw [hEq, hnn]
  · rw [hS] at hSome
    exact absurd hSome (by simp)
  · rw [hS] at hSome
    exact absurd hSome (by simp)
  · rw [hTf] at hT
    exact absurd hT (by simp)

theorem foldl_store_frame (env : Env) (cm dr : Bool)
    (snapshot : List Person) (emailIndex : List (String × Person))
    (tmap : List (String × Nat)) (l : List Member) (st : SyncState) (mid : String)
    (hne : ∀ m' ∈ l, m'.id ≠ mid) :
    storeLookup ((l.foldl (processMember env cm dr snapshot emailIndex tmap) st)).store mid
      = storeLookup st.store mid := by
  induction l generalizing st with
  | nil => rfl
  | cons a t ih =>
    rw [List.foldl_cons]
    rw [ih _ (fun m' hm' => hne m' (List.mem_cons_of_mem a hm'))]
    exact processMember_store_frame env cm dr snapshot emailIndex tmap st a mid
      (fun hc => hne a (List.mem_cons_self a t) hc.symm)

theorem foldl_store_map_id (env : Env) (cm dr : Bool)
    (snapshot : List Person) (emailIndex : List (String × Person))
    (tmap : List (String × Nat)) (l : List Member) (st : SyncState) :
    ((l.foldl (processMember env cm dr snapshot emailIndex tmap) st)).store.map Member.id
      = st.store.map Member.id := by
  induction l generalizing st with
  | nil => rfl
  | cons a t ih =>
    rw [List.foldl_cons, ih, processMember_store_map_id]

theorem foldl_remote_ids (env : Env) (cm dr : Bool)
    (snapshot : List Person) (emailIndex : List (String × Person))
    (tmap : List (String × Nat)) (l : List Member) (st : SyncState) (pid : Nat)
    (hp : pid ∈ st.remote.map Person.id) :
    pid ∈ ((l.foldl (processMember env cm dr snapshot emailIndex tmap) st)).remote.map Person.id := by
  induction l generalizing st with
  | nil => exact hp
  | cons a t ih =>
    rw [List.foldl_cons]
    exact ih _ (processMember_remote_ids env cm dr snapshot emailIndex tmap st a pid hp)

theorem foldl_nextId_nz (env : Env) (cm dr : Bool)
    (snapshot : List Person) (emailIndex : List (String × Person))
    (tmap : List (String × Nat)) (l : List Member) (st : SyncState)
    (h : st.nextId ≠ 0) :
    ((l.foldl (processMember env cm dr snapshot emailIndex tmap) st)).nextId ≠ 0 := by
  induction l generalizing st with
  | nil => exact h
  | cons a t ih =>
    rw [List.foldl_cons]
    exact ih _ (processMember_nextId_nz env cm dr snapshot emailIndex tmap st a h)

theorem foldl_matched_mono (env : Env) (cm dr : Bool)
    (snapshot : List Person) (emailIndex : List (String × Person))
    (tmap : List (String × Nat)) (l : List Member) (st : SyncState) (x : MatchEntry)
    (h : x ∈ st.results.matched) :
    x ∈ ((l.foldl (processMember env cm dr snapshot emailIndex tmap) st)).results.matched := by
  induction l generalizing st with
  | nil => exact h
  | cons a t ih =>
    rw [List.foldl_cons]
    exact ih _ (processMember_matched_mono env cm dr snapshot emailIndex tmap st a x h)

theorem foldl_created_mono (env : Env) (cm dr : Bool)
    (snapshot : List Person) (emailIndex : List (String × Person))
    (tmap : List (String × Nat)) (l : List Member) (st : SyncState) (x : MatchEntry)
    (h : x ∈ st.results.created) :
    x ∈ ((l.foldl (processMember env cm dr snapshot emailIndex tmap) st)).results.created := by
  induction l generalizing st with
  | nil => exact h
  | cons a t ih =>
    rw [List.foldl_cons]
    exact ih _ (processMember_created_mono env cm dr snapshot emailIndex tmap st a x h)

theorem foldl_errors_mono (env : Env) (cm dr : Bool)
    (snapshot : List Person) (emailIndex : List (String × Person))
    (tmap : List (String × Nat)) (l : List Member) (st : SyncState) (x : ErrorEntry)
    (h : x ∈ st.results.errors) :
    x ∈ ((l.foldl (processMember env cm dr snapshot emailIndex tmap) st)).results.errors := by
  induction l generalizing st with
  | nil => exact h
  | cons a t ih =>
    rw [List.foldl_cons]
    exact ih _ (processMember_errors_mono env cm dr snapshot emailIndex tmap st a x h)

theorem foldl_trace_create (env : Env) (cm dr : Bool)
    (snapshot : List Person) (emailIndex : List (String × Person))
    (tmap : List (String × Nat)) (l : List Member) (st : SyncState) (inp : PersonInput)
    (h : Effect.personCreate inp
        ∈ ((l.foldl (processMember env cm dr snapshot emailIndex tmap) st)).trace) :
    Effect.personCreate inp ∈ st.trace
      ∨ ∃ m ∈ l, inp.systemId = some m.id ∧ linkedValid snapshot m = false := by
  induction l generalizing st with
  | nil => exact Or.inl h
  | cons a t ih =>
    rw [List.foldl_cons] at h
    rcases ih _ h with h' | ⟨m, hm, hsys, hlv⟩
    · rcases processMember_trace_create env cm dr snapshot emailIndex tmap st a inp h' with
        h'' | ⟨hsys, hlv⟩
      · exact Or.inl h''
      · exact Or.inr ⟨a, List.mem_cons_self a t, hsys, hlv⟩
    · exact Or.inr ⟨m, List.mem_cons_of_mem a hm, hsys, hlv⟩

theorem foldl_linked_matched (env : Env) (cm dr : Bool)
    (snapshot : List Person) (emailIndex : List (String × Person))
    (tmap : List (String × Nat)) (l : List Member) (st : SyncState) (m : Member) (n : Nat)
    (hm : m ∈ l) (hdp : m.doorflowPersonId = some n) (hnz : n ≠ 0)
    (hmem : n ∈ snapshot.map Person.id) :
    ({ member := m, personId := n } : MatchEntry)
      ∈ ((l.foldl (processMember env cm dr snapshot emailIndex tmap) st)).results.matched := by
  induction l generalizing st with
  | nil => exact absurd hm (by simp)
  | cons a t ih =>
    rw [List.foldl_cons]
    rcases List.mem_cons.mp hm with h | h
    · rw [← h]
      rw [processMember_linked_eq env cm dr snapshot emailIndex tmap st m n hdp hnz hmem]
      apply foldl_matched_mono
      simp [SyncState.pushMatched]
    · exact ih _ h

theorem processMember_createFail_eq (env : Env)
    (snapshot : List Person) (emailIndex : List (String × Person))
    (tmap : List (String × Nat)) (st : SyncState) (m : Member) (e : Option String)
    (hT : numTruthy m.doorflowPersonId = false)
    (hE : memberEmailMatch emailIndex m = none)
    (hF : env.createFail (createInputOfMember m (getGroupIdsForMember m tmap)
        (env.photoOf m)) = some e) :
    processMember env true false snapshot emailIndex tmap st m
      = (st.addEffect (.personCreate (createInputOfMember m
          (getGroupIdsForMember m tmap) (env.photoOf m)))).pushErrors
          { member := m, error := e.getD "Failed to create person" } := by
  rcases processMember_shape env true false snapshot emailIndex tmap st m with
    ⟨n, _, hT', _, _⟩ | ⟨hT', _, _, _⟩ | ⟨hT', _, _, _⟩ | ⟨_, hEq⟩
  · rw [hT'] at hT
    exact absurd hT (by simp)
  · rw [hT'] at hT
    exact absurd hT (by simp)
  · rw [hT'] at hT
    exact absurd hT (by simp)
  · rw [hEq]
    rcases tryMatchMember_shape env true false emailIndex tmap m (env.photoOf m) st with
      ⟨p, hE', _, _⟩ | ⟨p, hE', _, _, _⟩ | ⟨p, hE', _, _, _, _⟩ | ⟨p, hE', _, _, _, _⟩ |
      ⟨_, _, hdr, _⟩ | ⟨e', hE', _, _, hF', hEq'⟩ | ⟨_, _, _, hF', _⟩ | ⟨_, hcm, _⟩
    · rw [hE] at hE'
      exact absurd hE' (by simp)
    · rw [hE] at hE'
      exact absurd hE' (by simp)
    · rw [hE] at hE'
      exact absurd hE' (by simp)
    · rw [hE] at hE'
      exact absurd hE' (by simp)
    · exact absurd hdr (by simp)
    · rw [hF] at hF'
      have : e' = e := by simpa using hF'.symm
      rw [hEq', this]
    · rw [hF] at hF'
      exact absurd hF' (by simp)
    · exact absurd hcm (by simp)

theorem foldl_createFail (env : Env)
    (snapshot : List Person) (emailIndex : List (String × Person))
    (tmap : List (String × Nat)) (l : List Member) (st : SyncState)
    (m : Member) (e : Option String)
    (hnd : (l.map Member.id).Nodup) (hm : m ∈ l)
    (hT : numTruthy m.doorflowPersonId = false)
    (hE : memberEmailMatch emailIndex m = none)
    (hF : env.createFail (createInputOfMember m (getGroupIdsForMember m tmap)
        (env.photoOf m)) = some e)
    (hst : storeLookup st.store m.id = some m) :
    ({ member := m, error := e.getD "Failed to create person" } : ErrorEntry)
      ∈ (l.foldl (processMember env true false snapshot emailIndex tmap) st).results.errors
    ∧ storeLookup
        (l.foldl (processMember env true false snapshot emailIndex tmap) st).store m.id
      = some m := by
  induction l generalizing st with
  | nil => exact absurd hm (by simp)
  | cons a t ih =>
    rw [List.map_cons, List.nodup_cons] at hnd
    rw [List.foldl_cons]
    rcases List.mem_cons.mp hm with h | h
    · subst h
      rw [processMember_createFail_eq env snapshot emailIndex tmap st m e hT hE hF]
      have hne : ∀ m' ∈ t, m'.id ≠ m.id := by
        intro m' hm' hc
        apply hnd.1
        rw [← hc]
        exact List.mem_map_of_mem Member.id hm'
      constructor
      · apply foldl_errors_mono
        simp [SyncState.pushErrors, SyncState.addEffect]
      · rw [foldl_store_frame env true false snapshot emailIndex tmap t _ m.id hne]
        exact hst
    · have hane : a.id ≠ m.id := by
        intro hc
        apply hnd.1
        rw [hc]
        exact List.mem_map_of_mem Member.id h
      have hst' : storeLookup
          (processMember env true false snapshot emailIndex tmap st a).store m.id = some m := by
        rw [processMember_store_frame env true false snapshot emailIndex tmap st a m.id
          (fun hc => hane hc.symm)]
        exact hst
      exact ih _ hnd.2 h hst'

theorem tryMatchMember_entries (env : Env) (cm : Bool)
    (snapshot : List Person) (tmap : List (String × Nat))
    (member : Member) (photo : Option String) (st : SyncState)
    (hst : (storeLookup st.store member.id).isSome = true)
    (hpos : ∀ p ∈ snapshot, p.id ≠ 0)
    (hsnap : ∀ pid, pid ∈ snapshot.map Person.id → pid ∈ st.remote.map Person.id)
    (hnz : st.nextId ≠ 0) :
    ∀ x, (x ∈ (tryMatchMember env cm false (emailIndexEntries snapshot) tmap member photo st).results.matched
        ∨ x ∈ (tryMatchMember env cm false (emailIndexEntries snapshot) tmap member photo st).results.created) →
      (x ∈ st.results.matched ∨ x ∈ st.results.created)
      ∨ (x.member.id = member.id
          ∧ entryGood (tryMatchMember env cm false (emailIndexEntries snapshot) tmap member photo st) x) := by
  obtain ⟨m0, hm0⟩ := Option.isSome_iff_exists.mp hst
  intro x hx
  rcases tryMatchMember_shape env cm false (emailIndexEntries snapshot) tmap member photo st with
    ⟨p, hE', hdr, _⟩ | ⟨p, hE', _, hG, hEq⟩ | ⟨p, hE', _, hG, hU, hEq⟩ |
    ⟨p, hE', _, hG, hU, hEq⟩ | ⟨_, _, hdr, _⟩ | ⟨e, hE', _, _, hF', hEq⟩ |
    ⟨hE', _, _, hF', hEq⟩ | ⟨hE', _, hEq⟩
  · exact absurd hdr (by simp)
  · rw [hEq] at hx
    simp only [SyncState.pushMatched, SyncState.addEffect, SyncState.modifyStore,
      List.mem_append, List.mem_singleton] at hx
    rcases hx with (hx | hx) | hx
    · exact Or.inl (Or.inl hx)
    · subst hx
      obtain ⟨hpm, hpt, _⟩ := memberEmailMatch_sound snapshot member p hE'
      refine Or.inr ⟨rfl, ⟨{ m0 with doorflowPersonId := some p.id }, ?_, rfl⟩, ?_, ?_⟩
      · rw [hEq]
        simp only [SyncState.pushMatched, SyncState.addEffect, SyncState.modifyStore]
        exact storeLookup_storeUpdate_self st.store member.id (some p.id) m0 hm0
      · rw [hEq]
        simp only [SyncState.pushMatched, SyncState.addEffect, SyncState.modifyStore]
        exact hsnap p.id (List.mem_map_of_mem Person.id hpm)
      · exact hpos p hpm
    · exact Or.inl (Or.inr hx)
  · rw [hEq] at hx
    simp only [SyncState.pushMatched, SyncState.addEffect, SyncState.modifyStore,
      List.mem_append, List.mem_singleton] at hx
    rcases hx with (hx | hx) | hx
    · exact Or.inl (Or.inl hx)
    · subst hx
      obtain ⟨hpm, hpt, _⟩ := memberEmailMatch_sound snapshot member p hE'
      refine Or.inr ⟨rfl, ⟨{ m0 with doorflowPersonId := some p.id }, ?_, rfl⟩, ?_, ?_⟩
      · rw [hEq]
        simp only [SyncState.pushMatched, SyncState.addEffect, SyncState.modifyStore]
        exact storeLookup_storeUpdate_self st.store member.id (some p.id) m0 hm0
      · rw [hEq]
        simp only [SyncState.pushMatched, SyncState.addEffect, SyncState.modifyStore]
        exact hsnap p.id (List.mem_map_of_mem Person.id hpm)
      · exact hpos p hpm
    · exact Or.inl (Or.inr hx)
  · rw [hEq] at hx
    simp only [SyncState.pushMatched, SyncState.addEffect, SyncState.modifyStore,
      List.mem_append, List.mem_singleton] at hx
    rcases hx with (hx | hx) | hx
    · exact Or.inl (Or.inl hx)
    · subst hx
      obtain ⟨hpm, hpt, _⟩ := memberEmailMatch_sound snapshot member p hE'
      refine Or.inr ⟨rfl, ⟨{ m0 with doorflowPersonId := some p.id }, ?_, rfl⟩, ?_, ?_⟩
      · rw [hEq]
        simp only [SyncState.pushMatched, SyncState.addEffect, SyncState.modifyStore]
        exact storeLookup_storeUpdate_self st.store member.id (some p.id) m0 hm0
      · rw [hEq]
        simp only [SyncState.pushMatched, SyncState.addEffect, SyncState.modifyStore]
        rw [remoteUpdate_map_id]
        exact hsnap p.id (List.mem_map_of_mem Person.id hpm)
      · exact hpos p hpm
    · exact Or.inl (Or.inr hx)
  · exact absurd hdr (by simp)
  · rw [hEq] at hx
    simp only [SyncState.pushErrors, SyncState.addEffect, List.mem_append] at hx
    rcases hx with hx | hx
    · exact Or.inl (Or.inl hx)
    · exact Or.inl (Or.inr hx)
  · rw [hEq] at hx
    simp only [SyncState.pushCreated, SyncState.addEffect, SyncState.modifyStore,
      List.mem_append, List.mem_singleton] at hx
    rcases hx with hx | (hx | hx)
    · exact Or.inl (Or.inl hx)
    · exact Or.inl (Or.inr hx)
    · subst hx
      refine Or.inr ⟨rfl, ⟨{ m0 with doorflowPersonId := some st.nextId }, ?_, rfl⟩, ?_, hnz⟩
      · rw [hEq]
        simp only [SyncState.pushCreated, SyncState.addEffect, SyncState.modifyStore]
        exact storeLookup_storeUpdate_self st.store member.id (some st.nextId) m0 hm0
      · rw [hEq]
        simp only [SyncState.pushCreated, SyncState.addEffect, SyncState.modifyStore,
          List.map_append, List.mem_append]
        right
        simp [personOfInput]
  · rw [hEq] at hx
    simp only [SyncState.pushUnmatched, List.mem_append] at hx
    rcases hx with hx | hx
    · exact Or.inl (Or.inl hx)
    · exact Or.inl (Or.inr hx)

theorem entryGood_step (env : Env) (cm dr : Bool)
    (snapshot : List Person) (emailIndex : List (String × Person))
    (tmap : List (String × Nat)) (st : SyncState) (a : Member) (x : MatchEntry)
    (hx : entryGood st x) (hxid : x.member.id ≠ a.id) :
    entryGood (processMember env cm dr snapshot emailIndex tmap st a) x := by
  obtain ⟨⟨m0, hl, hdp⟩, hr, hz⟩ := hx
  refine ⟨⟨m0, ?_, hdp⟩, ?_, hz⟩
  · rw [processMember_store_frame env cm dr snapshot emailIndex tmap st a x.member.id hxid]
    exact hl
  · exact processMember_remote_ids env cm dr snapshot emailIndex tmap st a x.personId hr

theorem processMember_entries (env : Env) (cm : Bool)
    (snapshot : List Person) (tmap : List (String × Nat))
    (st : SyncState) (m : Member)
    (hst : storeLookup st.store m.id = some m)
    (hpos : ∀ p ∈ snapshot, p.id ≠ 0)
    (hsnap : ∀ pid, pid ∈ snapshot.map Person.id → pid ∈ st.remote.map Person.id)
    (hnz : st.nextId ≠ 0) :
    ∀ x, (x ∈ (processMember env cm false snapshot (emailIndexEntries snapshot) tmap st m).results.matched
        ∨ x ∈ (processMember env cm false snapshot (emailIndexEntries snapshot) tmap st m).results.created) →
      (x ∈ st.results.matched ∨ x ∈ st.results.created)
      ∨ (x.member.id = m.id
          ∧ entryGood (processMember env cm false snapshot (emailIndexEntries snapshot) tmap st m) x) := by
  intro x hx
  rcases processMember_shape env cm false snapshot (emailIndexEntries snapshot) tmap st m with
    ⟨n, hdp, hT, hS, hEq⟩ | ⟨_, _, hdr, _⟩ | ⟨hT, hS, _, hEq⟩ | ⟨hT, hEq⟩
  · rw [hEq] at hx
    simp only [SyncState.pushMatched, List.mem_append, List.mem_singleton] at hx
    rcases hx with (hx | hx) | hx
    · exact Or.inl (Or.inl hx)
    · subst hx
      have hn0 : n ≠ 0 := by
        rw [hdp] at hT
        simpa [numTruthy] using hT
      have hnm : n ∈ snapshot.map Person.id := by
        obtain ⟨q, hq, hpred⟩ := List.find?_isSome.mp hS
        rw [hdp] at hpred
        have : q.id = n := by simpa using eq_of_beq hpred
        rw [← this]
        exact List.mem_map_of_mem Person.id hq
      refine Or.inr ⟨rfl, ⟨m, ?_, hdp⟩, ?_, hn0⟩
      · rw [hEq]
        exact hst
      · rw [hEq]
        exact hsnap n hnm
    · exact Or.inl (Or.inr hx)
  · exact absurd hdr (by simp)
  · rw [hEq] at hx ⊢
    have hstW : (storeLookup ((st.addEffect (.storeWrite m.id none)).modifyStore
        (fun s => storeUpdate s m.id none)).store m.id).isSome = true := by
      simp only [SyncState.addEffect, SyncState.modifyStore]
      rw [storeLookup_storeUpdate_self st.store m.id none m hst]
      rfl
    exact tryMatchMember_entries env cm snapshot tmap m (env.photoOf m) _ hstW hpos hsnap hnz x hx
  · rw [hEq] at hx ⊢
    have hstS : (storeLookup st.store m.id).isSome = true := by
      rw [hst]
      rfl
    exact tryMatchMember_entries env cm snapshot tmap m (env.photoOf m) st hstS hpos hsnap hnz x hx

theorem foldl_entries (env : Env) (cm : Bool)
    (snapshot : List Person) (tmap : List (String × Nat))
    (l : List Member) (st : SyncState)
    (hnd : (l.map Member.id).Nodup)
    (hpos : ∀ p ∈ snapshot, p.id ≠ 0)
    (hsnap : ∀ pid, pid ∈ snapshot.map Person.id → pid ∈ st.remote.map Person.id)
    (hnz : st.nextId ≠ 0)
    (hstore : ∀ m' ∈ l, storeLookup st.store m'.id = some m')
    (hInv : ∀ x, (x ∈ st.results.matched ∨ x ∈ st.results.created) → entryGood st x)
    (hdone : ∀ x, (x ∈ st.results.matched ∨ x ∈ st.results.created) →
        x.member.id ∉ l.map Member.id) :
    ∀ x, (x ∈ (l.foldl (processMember env cm false snapshot (emailIndexEntries snapshot) tmap) st).results.matched
        ∨ x ∈ (l.foldl (processMember env cm false snapshot (emailIndexEntries snapshot) tmap) st).results.created) →
      entryGood (l.foldl (processMember env cm false snapshot (emailIndexEntries snapshot) tmap) st) x := by
  induction l generalizing st with
  | nil => exact hInv
  | cons a t ih =>
    rw [List.map_cons, List.nodup_cons] at hnd
    rw [List.foldl_cons]
    have hstep := processMember_entries env cm snapshot tmap st a
      (hstore a (List.mem_cons_self a t)) hpos hsnap hnz
    apply ih
    · exact hnd.2
    · intro pid hp
      exact processMember_remote_ids env cm false snapshot (emailIndexEntries snapshot)
        tmap st a pid (hsnap pid hp)
    · exact processMember_nextId_nz env cm false snapshot (emailIndexEntries snapshot)
        tmap st a hnz
    · intro m' hm'
      have hne : m'.id ≠ a.id := by
        intro hc
        apply hnd.1
        rw [← hc]
        exact List.mem_map_of_mem Member.id hm'
      rw [processMember_store_frame env cm false snapshot (emailIndexEntries snapshot)
        tmap st a m'.id hne]
      exact hstore m' (List.mem_cons_of_mem a hm')
    · intro x hx
      rcases hstep x hx with hold | ⟨hid, hgood⟩
      · have hxid : x.member.id ≠ a.id := by
          intro hc
          apply hdone x hold
          rw [hc]
          exact List.mem_cons_self a.id _
        exact entryGood_step env cm false snapshot (emailIndexEntries snapshot) tmap st a x
          (hInv x hold) hxid
      · exact hgood
    · intro x hx
      rcases hstep x hx with hold | ⟨hid, _⟩
      · intro hc
        apply hdone x hold
        exact List.mem_cons_of_mem a.id hc
      · rw [hid]
        exact hnd.1

theorem dry_frame_tryMatchMember (env : Env) (cm : Bool)
    (emailIndex : List (String × Person)) (tmap : List (String × Nat))
    (member : Member) (photo : Option String) (st : SyncState) :
    (tryMatchMember env cm true emailIndex tmap member photo st).store = st.store
    ∧ (tryMatchMember env cm true emailIndex tmap member photo st).remote = st.remote
    ∧ (tryMatchMember env cm true emailIndex tmap member photo st).nextId = st.nextId
    ∧ (tryMatchMember env cm true emailIndex tmap member photo st).trace = st.trace := by
  rw [tryMatchMember]
  dsimp only
  split
  · simp [SyncState.pushMatched]
  · split
    · simp [SyncState.pushCreated]
    · simp [SyncState.pushUnmatched]

theorem dry_frame_processMember (env : Env) (cm : Bool)
    (snapshot : List Person) (emailIndex : List (String × Person))
    (tmap : List (String × Nat)) (st : SyncState) (member : Member) :
    (processMember env cm true snapshot emailIndex tmap st member).store = st.store
    ∧ (processMember env cm true snapshot emailIndex tmap st member).remote = st.remote
    ∧ (processMember env cm true snapshot emailIndex tmap st member).nextId = st.nextId
    ∧ (processMember env cm true snapshot emailIndex tmap st member).trace = st.trace := by
  rw [processMember]
  dsimp only
  split
  · split
    · simp [SyncState.pushMatched]
    · exact dry_frame_tryMatchMember env cm emailIndex tmap member (env.photoOf member) st
  · exact dry_frame_tryMatchMember env cm emailIndex tmap member (env.photoOf member) st

theorem dry_frame_foldl (env : Env) (cm : Bool)
    (snapshot : List Person) (emailIndex : List (String × Person))
    (tmap : List (String × Nat)) (members : List Member) (st : SyncState) :
    (members.foldl (processMember env cm true snapshot emailIndex tmap) st).store = st.store
    ∧ (members.foldl (processMember env cm true snapshot emailIndex tmap) st).remote = st.remote
    ∧ (members.foldl (processMember env cm true snapshot emailIndex tmap) st).nextId = st.nextId
    ∧ (members.foldl (processMember env cm true snapshot emailIndex tmap) st).trace = st.trace := by
  induction members generalizing st with
  | nil => exact ⟨rfl, rfl, rfl, rfl⟩
  | cons m rest ih =>
    have hstep := dry_frame_processMember env cm snapshot emailIndex tmap st m
    have htail := ih (processMember env cm true snapshot emailIndex tmap st m)
    simp only [List.foldl_cons]
    exact ⟨htail.1.trans hstep.1, htail.2.1.trans hstep.2.1,
      htail.2.2.1.trans hstep.2.2.1, htail.2.2.2.trans hstep.2.2.2⟩

/-- C1: for every run of `synchronize` (any combination of `createMissing`
and `dryRun`), the member ids reported across the four buckets are a
permutation of the ids of the loaded members — no member is dropped and
none appears twice — and when the loaded ids are distinct every loaded
member's id appears in the buckets exactly once. -/
theorem C1_bucket_partition (env : Env) (cm dr : Bool) (members : List Member)
    (teams : List Team) (ppl : List Person) (nid : Nat) :
    List.Perm ((synchronize env cm dr members teams ppl nid).results.bucketIds)
      (members.map Member.id)
    ∧ ((members.map Member.id).Nodup →
        ∀ m ∈ members,
          ((synchronize env cm dr members teams ppl nid).results.bucketIds).count m.id = 1) := by
  constructor
  · exact List.perm_iff_count.mpr (fun i => bucketIds_count_synchronize env cm dr members teams ppl nid i)
  · intro hnd m hm
    rw [bucketIds_count_synchronize]
    exact List.count_eq_one_of_mem hnd (List.mem_map_of_mem Member.id hm)

/-- Witness for C1 at a concrete input: a singleton member list has
distinct ids, and the single member's id is reported exactly once. -/
theorem C1_bucket_partition_witness :
    ((synchronize envOK true false [mw1] [] [] 1).results.bucketIds).count mw1.id = 1 :=
  (C1_bucket_partition envOK true false [mw1] [] [] 1).2 (by decide) mw1 (by decide)

/-- C4: the email-match step finds exactly the remote people whose
lower-cased email equals the member's lower-cased email: the lookup
equals a search (in reverse fetch order, so the later of two remote
people carrying the same lower-cased email wins) for a person with a
truthy email whose lower-cased email is the member's; a member with an
empty email never matches; any returned person belongs to the fetched
list, carries an email, and agrees on the lower-cased email; and every
person positioned before a later same-email person is invisible to the
lookup. -/
theorem C4_email_matching (ppl : List Person) (m : Member) :
    (m.email ≠ "" →
      memberEmailMatch (emailIndexEntries ppl) m
        = ppl.reverse.find?
            (fun p => strTruthy p.email
              && (toLowerCase (p.email.getD "") == toLowerCase m.email)))
    ∧ (m.email = "" → memberEmailMatch (emailIndexEntries ppl) m = none)
    ∧ (∀ p, memberEmailMatch (emailIndexEntries ppl) m = some p →
        p ∈ ppl ∧ strTruthy p.email = true
          ∧ toLowerCase (p.email.getD "") = toLowerCase m.email)
    ∧ (∀ xs q ys, strTruthy q.email = true →
        toLowerCase (q.email.getD "") = toLowerCase m.email →
        memberEmailMatch (emailIndexEntries (xs ++ q :: ys)) m
          = memberEmailMatch (emailIndexEntries (q :: ys)) m) := by
  refine ⟨?_, ?_, ?_, ?_⟩
  · intro h
    rw [memberEmailMatch, if_neg h, jsMapGet_emailIndex]
  · intro h
    rw [memberEmailMatch, if_pos h]
  · intro p hp
    rw [memberEmailMatch] at hp
    by_cases h : m.email = ""
    · rw [if_pos h] at hp
      exact absurd hp (by simp)
    · rw [if_neg h, jsMapGet_emailIndex] at hp
      have hmem := List.mem_of_find?_eq_some hp
      have hpred := List.find?_some hp
      rw [Bool.and_eq_true] at hpred
      exact ⟨List.mem_reverse.mp hmem, hpred.1, eq_of_beq hpred.2⟩
  · intro xs q ys hq hqe
    by_cases h : m.email = ""
    · rw [memberEmailMatch, if_pos h, memberEmailMatch, if_pos h]
    · rw [memberEmailMatch, if_neg h, memberEmailMatch, if_neg h,
        jsMapGet_emailIndex, jsMapGet_emailIndex, List.reverse_cons,
        List.reverse_append, List.reverse_cons, List.append_assoc,
        List.find?_append, List.find?_append]
      have hfq : List.find?
          (fun p => strTruthy p.email
            && (toLowerCase (p.email.getD "") == toLowerCase m.email))
          [q] = some q := by
        simp [List.find?_cons, hq, hqe]
      rw [List.find?_append, hfq]
      cases List.find?
          (fun p => strTruthy p.email
            && (toLowerCase (p.email.getD "") == toLowerCase m.email))
          ys.reverse <;> rfl

/-- Witness for C4 at a concrete input: two remote people share the
email of the member (up to case); the lookup returns the later one. -/
theorem C4_email_matching_witness :
    memberEmailMatch
      (emailIndexEntries
        [{ id := 7, email := some "A@x.com" }, { id := 8, email := some "a@X.com" }])
      mw1 = some { id := 8, email := some "a@X.com" } := by
  have h := (C4_email_matching
    [{ id := 7, email := some "A@x.com" }, { id := 8, email := some "a@X.com" }] mw1).1
    (by decide)
  rw [h]
  decide

/-- C2: a `dryRun=true` run leaves the local store and the remote
directory unchanged, issues no mutating call at all (empty effect trace),
and allocates no remote id. -/
theorem C2_dry_run_no_op (env : Env) (cm : Bool) (members : List Member)
    (teams : List Team) (ppl : List Person) (nid : Nat) :
    (synchronize env cm true members teams ppl nid).store = members
    ∧ (synchronize env cm true members teams ppl nid).remote = ppl
    ∧ (synchronize env cm true members teams ppl nid).trace = []
    ∧ (synchronize env cm true members teams ppl nid).nextId = nid := by
  rw [synchronize]
  have h := dry_frame_foldl env cm ppl (emailIndexEntries ppl) (teamToGroupEntries teams)
    members { store := members, remote := ppl, nextId := nid }
  exact ⟨h.1, h.2.1, h.2.2.2, h.2.2.1⟩

/-- C3 counterexample: the member `mz` has its `doorflowPersonId` set (to
the number 0), which refers to no person in the fetched remote list (it
is empty), yet even a `dryRun=false` run does not clear the stored id:
JavaScript truthiness makes the engine treat a zero link as unlinked, so
no unlink write ever happens and the stored record keeps `some 0`. -/
theorem C3_counterexample :
    mz.doorflowPersonId = some 0
    ∧ (∀ p ∈ ([] : List Person), p.id ≠ 0)
    ∧ (synchronize envOK false false [mz] [] [] 1).store = [mz]
    ∧ mz.doorflowPersonId ≠ none := by
  refine ⟨rfl, by decide, by decide, by decide⟩

/-- C3 (amended): for every member whose `doorflowPersonId` is a NONZERO
id that refers to no person in the fetched remote list, processing the
member first clears the stored id (skipping the local write when
`dryRun=true`, recording it otherwise) and then falls through to the
unlinked-member handling; and that handling places the member in the same
bucket it would place the fully unlinked member, whatever the state. -/
theorem C3_stale_link_self_heal (env : Env) (cm dr : Bool)
    (snapshot : List Person) (emailIndex : List (String × Person))
    (tmap : List (String × Nat)) (st : SyncState) (m : Member) (n : Nat)
    (hdp : m.doorflowPersonId = some n) (hnz : n ≠ 0)
    (habs : ∀ p ∈ snapshot, p.id ≠ n) :
    processMember env cm dr snapshot emailIndex tmap st m
      = tryMatchMember env cm dr emailIndex tmap m (env.photoOf m)
          (if dr then st
           else (st.addEffect (.storeWrite m.id none)).modifyStore
             (fun s => storeUpdate s m.id none))
    ∧ ∀ (photo : Option String) (st' : SyncState),
        (tryMatchMember env cm dr emailIndex tmap m photo st').results.bucketSizes
          = (tryMatchMember env cm dr emailIndex tmap
              { m with doorflowPersonId := none } photo st').results.bucketSizes := by
  constructor
  · rw [processMember]
    dsimp only
    have ht : numTruthy m.doorflowPersonId = true := by
      rw [hdp]
      simp [numTruthy, hnz]
    rw [if_pos ht]
    have hf : snapshot.find? (fun p => some p.id == m.doorflowPersonId) = none := by
      rw [List.find?_eq_none]
      intro p hp
      rw [hdp]
      simp [habs p hp]
    rw [hf]
  · intro photo st'
    have he : memberEmailMatch emailIndex { m with doorflowPersonId := none }
        = memberEmailMatch emailIndex m := rfl
    have hgr : getGroupIdsForMember { m with doorflowPersonId := none } tmap
        = getGroupIdsForMember m tmap := rfl
    have hci : createInputOfMember { m with doorflowPersonId := none }
          (getGroupIdsForMember m tmap) photo
        = createInputOfMember m (getGroupIdsForMember m tmap) photo := rfl
    rw [tryMatchMember, tryMatchMember]
    dsimp only
    rw [he, hgr]
    cases hE : memberEmailMatch emailIndex m with
    | some p =>
      simp [hE, SyncState.pushMatched, SyncState.addEffect, SyncState.modifyStore,
        SyncResult.bucketSizes, apply_ite SyncState.results]
    | none =>
      simp only [hE]
      by_cases hcm : cm
      · by_cases hdr : dr
        · simp [hcm, hdr, SyncState.pushCreated, SyncResult.bucketSizes]
        · simp only [hcm, hdr, if_true, if_false, Bool.false_eq_true, ite_true, ite_false,
            hci]
          cases hF : env.createFail (createInputOfMember m (getGroupIdsForMember m tmap) photo) <;>
            simp [hF, SyncState.pushErrors, SyncState.pushCreated, SyncState.addEffect,
              SyncState.modifyStore, SyncResult.bucketSizes]
      · simp [hcm, SyncState.pushUnmatched, SyncResult.bucketSizes]

theorem jsMapGet_cons {α : Type} (e : String × α) (es : List (String × α)) (key : String) :
    jsMapGet (e :: es) key
      = (jsMapGet es key).or (if e.1 == key then some e.2 else none) := by
  unfold jsMapGet
  rw [List.reverse_cons, List.find?_append]
  cases hf : es.reverse.find? (fun x => x.1 == key) <;>
    by_cases h : (e.1 == key) = true <;>
      simp [hf, h, List.find?_cons]

theorem jsMapGet_teamToGroup_none (rest : List Team) (tid : String)
    (h : ∀ t ∈ rest, t.id ≠ tid) :
    jsMapGet (teamToGroupEntries rest) tid = none := by
  unfold jsMapGet
  rw [Option.map_eq_none', List.find?_eq_none]
  intro e he
  rw [List.mem_reverse] at he
  unfold teamToGroupEntries at he
  rw [List.mem_filterMap] at he
  obtain ⟨t, ht, hmap⟩ := he
  cases hd : t.doorflowGroupId with
  | none => rw [hd] at hmap; exact absurd hmap (by simp)
  | some g =>
    rw [hd] at hmap
    have hpair : (t.id, g) = e := by simpa using hmap
    have he1 : e.1 = t.id := by rw [← hpair]
    rw [he1]
    simpa using h t ht

theorem jsMapGet_teamToGroup_some (teams : List Team) (tid : String) (g : Nat)
    (hnd : (teams.map Team.id).Nodup) :
    jsMapGet (teamToGroupEntries teams) tid = some g
      ↔ ∃ t ∈ teams, t.id = tid ∧ t.doorflowGroupId = some g := by
  induction teams with
  | nil => simp [jsMapGet, teamToGroupEntries]
  | cons t rest ih =>
    rw [List.map_cons, List.nodup_cons] at hnd
    obtain ⟨hhd, hrest⟩ := hnd
    cases hd : t.doorflowGroupId with
    | none =>
      rw [teamToGroupEntries, List.filterMap_cons, hd]
      rw [show (Option.map (fun g => (t.id, g)) none) = none from rfl]
      rw [← teamToGroupEntries, ih hrest]
      constructor
      · intro ⟨u, hu, h1, h2⟩
        exact ⟨u, List.mem_cons_of_mem t hu, h1, h2⟩
      · intro ⟨u, hu, h1, h2⟩
        rcases List.mem_cons.mp hu with h | h
        · rw [h] at h2
          rw [hd] at h2
          exact absurd h2 (by simp)
        · exact ⟨u, h, h1, h2⟩
    | some gt =>
      rw [teamToGroupEntries, List.filterMap_cons, hd]
      rw [show (Option.map (fun g => (t.id, g)) (some gt)) = some (t.id, gt) from rfl]
      rw [← teamToGroupEntries, jsMapGet_cons]
      by_cases htid : t.id = tid
      · have hnone : jsMapGet (teamToGroupEntries rest) tid = none := by
          apply jsMapGet_teamToGroup_none
          intro u hu
          intro hcon
          apply hhd
          rw [← htid] at hcon
          rw [← hcon]
          exact List.mem_map_of_mem Team.id hu
        rw [hnone]
        simp only [Option.none_or, htid]
        constructor
        · intro h
          rw [if_pos (by simp)] at h
          simp only [Option.some.injEq] at h
          exact ⟨t, List.mem_cons_self t rest, htid, by rw [hd, h]⟩
        · intro ⟨u, hu, h1, h2⟩
          rcases List.mem_cons.mp hu with h | h
          · rw [if_pos (by simp)]
            rw [h] at h2
            rw [hd] at h2
            exact h2
          · exfalso
            apply hhd
            have huid : u.id = t.id := h1.trans htid.symm
            rw [← huid]
            exact List.mem_map_of_mem Team.id h
      · rw [if_neg (by simpa using htid), Option.or_none, ih hrest]
        constructor
        · intro ⟨u, hu, h1, h2⟩
          exact ⟨u, List.mem_cons_of_mem t hu, h1, h2⟩
        · intro ⟨u, hu, h1, h2⟩
          rcases List.mem_cons.mp hu with h | h
          · rw [h] at h1
            exact absurd h1 htid
          · exact ⟨u, h, h1, h2⟩

/-- C7: resolving a member's team ids against the team-to-group mapping
yields exactly the mapped remote group ids of the member's teams whose
`doorflowGroupId` is non-null — unmapped and unknown team ids are
silently dropped.  The characterization holds both for the sync route's
`getGroupIdsForMember` and for the storage helper
`getDoorflowGroupIdsForTeams`. -/
theorem C7_team_group_resolution (teams : List Team) (m : Member)
    (hnd : (teams.map Team.id).Nodup) :
    (∀ g, g ∈ getGroupIdsForMember m (teamToGroupEntries teams)
        ↔ ∃ t ∈ teams, t.id ∈ m.teamIds ∧ t.doorflowGroupId = some g)
    ∧ (∀ g, g ∈ getDoorflowGroupIdsForTeams teams m.teamIds
        ↔ ∃ t ∈ teams, t.id ∈ m.teamIds ∧ t.doorflowGroupId = some g) := by
  constructor
  · intro g
    unfold getGroupIdsForMember
    rw [List.mem_filterMap]
    constructor
    · intro ⟨tid, htid, hmg⟩
      obtain ⟨t, ht, hid, hdg⟩ := (jsMapGet_teamToGroup_some teams tid g hnd).mp hmg
      refine ⟨t, ht, ?_, hdg⟩
      rw [hid]
      exact htid
    · intro ⟨t, ht, hid, hdg⟩
      exact ⟨t.id, hid, (jsMapGet_teamToGroup_some teams t.id g hnd).mpr ⟨t, ht, rfl, hdg⟩⟩
  · intro g
    unfold getDoorflowGroupIdsForTeams getTeamsByIds
    rw [List.mem_filterMap]
    constructor
    · intro ⟨t, ht, hdg⟩
      rw [List.mem_filter] at ht
      exact ⟨t, ht.1, by simpa using ht.2, hdg⟩
    · intro ⟨t, ht, hid, hdg⟩
      exact ⟨t, List.mem_filter.mpr ⟨ht, by simpa using hid⟩, hdg⟩

/-- Witness for C7 at a concrete input: a member in teams mapped to
groups 1 and 2 (plus one unmapped team) resolves to both group ids. -/
theorem C7_team_group_resolution_witness :
    1 ∈ getGroupIdsForMember mTeams (teamToGroupEntries [tA, tB, tU])
    ∧ 2 ∈ getGroupIdsForMember mTeams (teamToGroupEntries [tA, tB, tU]) := by
  constructor
  · exact ((C7_team_group_resolution [tA, tB, tU] mTeams (by decide)).1 1).mpr
      ⟨tA, by decide, by decide, rfl⟩
  · exact ((C7_team_group_resolution [tA, tB, tU] mTeams (by decide)).1 2).mpr
      ⟨tB, by decide, by decide, rfl⟩

/-- Witness for C3 (amended) at a concrete input: the stale-linked member
`ms` (dangling nonzero id 5, empty remote list) is unlinked and falls
through to unlinked-member handling. -/
theorem C3_stale_link_self_heal_witness :
    processMember envOK false false [] [] [] stW ms
      = tryMatchMember envOK false false [] [] ms (envOK.photoOf ms)
          (if false then stW
           else (stW.addEffect (.storeWrite ms.id none)).modifyStore
             (fun s => storeUpdate s ms.id none)) :=
  (C3_stale_link_self_heal envOK false false [] [] [] stW ms 5 rfl
    (by decide) (by decide)).1

/-- C9 counterexample: the member `m0` stores `doorflowPersonId = 0`,
which refers to the remote person `p0` (id 0) present in the fetched
list, yet a `dryRun=false` run performs a local store write for that
member: JavaScript truthiness makes the engine treat the zero link as
unlinked, so it re-matches by email and re-writes the link. -/
theorem C9_counterexample :
    m0.doorflowPersonId = some 0
    ∧ p0 ∈ [p0] ∧ p0.id = 0
    ∧ (synchronize envOK false false [m0] [] [p0] 1).trace
        = [Effect.storeWrite "m0" (some 0)] :=
  ⟨rfl, by decide, rfl, by decide⟩

/-- C9 (amended): for every member whose stored `doorflowPersonId` is a
NONZERO id referring to a person present in the fetched list, the engine
classifies the member as matched with that same id and leaves the store,
the remote directory, the effect trace and the id supply untouched — no
group or photo update is pushed — in both dry-run and live mode. -/
theorem C9_linked_member_no_writes (env : Env) (cm dr : Bool)
    (snapshot : List Person) (emailIndex : List (String × Person))
    (tmap : List (String × Nat)) (st : SyncState) (m : Member) (n : Nat)
    (hdp : m.doorflowPersonId = some n) (hnz : n ≠ 0)
    (hmem : n ∈ snapshot.map Person.id) :
    processMember env cm dr snapshot emailIndex tmap st m
      = st.pushMatched { member := m, personId := n }
    ∧ (processMember env cm dr snapshot emailIndex tmap st m).store = st.store
    ∧ (processMember env cm dr snapshot emailIndex tmap st m).remote = st.remote
    ∧ (processMember env cm dr snapshot emailIndex tmap st m).trace = st.trace
    ∧ (processMember env cm dr snapshot emailIndex tmap st m).nextId = st.nextId := by
  have h := processMember_linked_eq env cm dr snapshot emailIndex tmap st m n hdp hnz hmem
  refine ⟨h, ?_, ?_, ?_, ?_⟩ <;> rw [h] <;> rfl

/-- Witness for C9 (amended) at a concrete input: the member `mL` linked
to the present person 9 is re-affirmed as matched with no effects. -/
theorem C9_linked_member_no_writes_witness :
    processMember envOK true false [p9] [] [] stW mL
      = stW.pushMatched { member := mL, personId := 9 } :=
  (C9_linked_member_no_writes envOK true false [p9] [] [] stW mL 9 rfl
    (by decide) (by decide)).1

/-- C10 counterexample: for the stale-linked member `ms` (dangling link
5) whose remote creation then fails, the run is an errors-bucket case
with `createMissing=true` and `dryRun=false`, the reported member is the
pre-run snapshot, but the stored record is NOT left unchanged: the
stale-link unlink write cleared its `doorflowPersonId` before the failed
creation. -/
theorem C10_counterexample :
    (synchronize envFail true false [ms] [] [] 1).results.errors
        = [{ member := ms, error := "boom" }]
    ∧ (synchronize envFail true false [ms] [] [] 1).store
        = [{ ms with doorflowPersonId := none }]
    ∧ (synchronize envFail true false [ms] [] [] 1).store ≠ [ms] :=
  ⟨by decide, by decide, by decide⟩

/-- C10 (amended): when remote person creation fails for a member that
entered the run UNLINKED (its stored link not truthy), the run leaves
that member's stored record unchanged, and the errors bucket carries the
unmodified pre-run member object together with the failure's message.
(For a stale-linked member the earlier unlink write still changes the
stored record before the failed creation.) -/
theorem C10_create_failure_frame (env : Env) (members : List Member)
    (teams : List Team) (ppl : List Person) (nid : Nat) (m : Member) (e : Option String)
    (hnd : (members.map Member.id).Nodup)
    (hm : m ∈ members)
    (hT : numTruthy m.doorflowPersonId = false)
    (hE : memberEmailMatch (emailIndexEntries ppl) m = none)
    (hF : env.createFail (createInputOfMember m
        (getGroupIdsForMember m (teamToGroupEntries teams)) (env.photoOf m)) = some e) :
    ({ member := m, error := e.getD "Failed to create person" } : ErrorEntry)
      ∈ (synchronize env true false members teams ppl nid).results.errors
    ∧ storeLookup (synchronize env true false members teams ppl nid).store m.id = some m := by
  rw [synchronize]
  exact foldl_createFail env ppl (emailIndexEntries ppl) (teamToGroupEntries teams)
    members { store := members, remote := ppl, nextId := nid } m e hnd hm hT hE hF
    (storeLookup_self_of_nodup members m hnd hm)

/-- Witness for C10 (amended) at a concrete input: the unlinked member
`mw1` whose creation fails lands in errors unchanged and keeps its
stored record. -/
theorem C10_create_failure_frame_witness :
    ({ member := mw1, error := "boom" } : ErrorEntry)
      ∈ (synchronize envFail true false [mw1] [] [] 1).results.errors
    ∧ storeLookup (synchronize envFail true false [mw1] [] [] 1).store mw1.id = some mw1 :=
  C10_create_failure_frame envFail [mw1] [] [] 1 mw1 (some "boom")
    (by decide) (by decide) rfl (by decide) rfl

/-- C6: for every email match processed with `dryRun=false`, the engine
persists the local-to-remote link; it issues a remote update (carrying
the derived group ids and/or the encoded photo) exactly when at least one
group id or a truthy photo exists, and issues none otherwise; and a
failure of that update changes nothing else: the member is still
reported as matched and no other bucket — in particular `errors` — is
touched, and the remote directory is left as it was. -/
theorem C6_matched_best_effort (env : Env) (cm : Bool)
    (emailIndex : List (String × Person)) (tmap : List (String × Nat))
    (m : Member) (photo : Option String) (st : SyncState) (p : Person)
    (hE : memberEmailMatch emailIndex m = some p) :
    (tryMatchMember env cm false emailIndex tmap m photo st).store
      = storeUpdate st.store m.id (some p.id)
    ∧ (tryMatchMember env cm false emailIndex tmap m photo st).results
      = { st.results with matched := st.results.matched
            ++ [{ member := { m with doorflowPersonId := some p.id }, personId := p.id }] }
    ∧ (getGroupIdsForMember m tmap = [] → strTruthy photo = false →
        (tryMatchMember env cm false emailIndex tmap m photo st).trace
          = st.trace ++ [.storeWrite m.id (some p.id)])
    ∧ ((getGroupIdsForMember m tmap ≠ [] ∨ strTruthy photo = true) →
        (tryMatchMember env cm false emailIndex tmap m photo st).trace
          = st.trace ++ [.storeWrite m.id (some p.id),
              .personUpdate p.id
                { groupIds := if (getGroupIdsForMember m tmap).isEmpty then none
                    else some (getGroupIdsForMember m tmap)
                  imageBase64 := if strTruthy photo then photo else none }])
    ∧ (env.updateFail p.id = true →
        (tryMatchMember env cm false emailIndex tmap m photo st).remote = st.remote) := by
  rcases tryMatchMember_shape env cm false emailIndex tmap m photo st with
    ⟨q, hE', hdr, _⟩ | ⟨q, hE', _, hG, hEq⟩ | ⟨q, hE', _, hG, hU, hEq⟩ |
    ⟨q, hE', _, hG, hU, hEq⟩ | ⟨hE', _, _, _⟩ | ⟨e, hE', _, _, _, _⟩ |
    ⟨hE', _, _, _, _⟩ | ⟨hE', _, _⟩
  · exact absurd hdr (by simp)
  · have hqp : q = p := by
      rw [hE] at hE'
      simpa using hE'.symm
    subst hqp
    rw [Bool.or_eq_false_iff] at hG
    have hgi : (getGroupIdsForMember m tmap).isEmpty = true := by
      have := hG.1
      simpa using this
    refine ⟨?_, ?_, ?_, ?_, ?_⟩
    · rw [hEq]
      simp [SyncState.pushMatched, SyncState.addEffect, SyncState.modifyStore]
    · rw [hEq]
      simp [SyncState.pushMatched, SyncState.addEffect, SyncState.modifyStore]
    · intro h1 h2
      rw [hEq]
      simp [SyncState.pushMatched, SyncState.addEffect, SyncState.modifyStore]
    · intro hd
      exfalso
      rcases hd with hd | hd
      · exact hd (List.isEmpty_iff.mp hgi)
      · rw [hG.2] at hd
        exact absurd hd (by simp)
    · intro hu
      rw [hEq]
      simp [SyncState.pushMatched, SyncState.addEffect, SyncState.modifyStore]
  · have hqp : q = p := by
      rw [hE] at hE'
      simpa using hE'.symm
    subst hqp
    refine ⟨?_, ?_, ?_, ?_, ?_⟩
    · rw [hEq]
      simp [SyncState.pushMatched, SyncState.addEffect, SyncState.modifyStore]
    · rw [hEq]
      simp [SyncState.pushMatched, SyncState.addEffect, SyncState.modifyStore]
    · intro h1 h2
      exfalso
      rw [Bool.or_eq_true_iff] at hG
      rcases hG with hg | hg
      · rw [h1] at hg
        exact absurd hg (by simp [List.isEmpty_nil])
      · rw [h2] at hg
        exact absurd hg (by simp)
    · intro hd
      rw [hEq]
      simp [SyncState.pushMatched, SyncState.addEffect, SyncState.modifyStore]
    · intro hu
      rw [hEq]
      simp [SyncState.pushMatched, SyncState.addEffect, SyncState.modifyStore]
  · have hqp : q = p := by
      rw [hE] at hE'
      simpa using hE'.symm
    subst hqp
    refine ⟨?_, ?_, ?_, ?_, ?_⟩
    · rw [hEq]
      simp [SyncState.pushMatched, SyncState.addEffect, SyncState.modifyStore]
    · rw [hEq]
      simp [SyncState.pushMatched, SyncState.addEffect, SyncState.modifyStore]
    · intro h1 h2
      exfalso
      rw [Bool.or_eq_true_iff] at hG
      rcases hG with hg | hg
      · rw [h1] at hg
        exact absurd hg (by simp [List.isEmpty_nil])
      · rw [h2] at hg
        exact absurd hg (by simp)
    · intro hd
      rw [hEq]
      simp [SyncState.pushMatched, SyncState.addEffect, SyncState.modifyStore]
    · intro hu
      rw [hU] at hu
      exact absurd hu (by simp)
  · rw [hE] at hE'
    exact absurd hE' (by simp)
  · rw [hE] at hE'
    exact absurd hE' (by simp)
  · rw [hE] at hE'
    exact absurd hE' (by simp)
  · rw [hE] at hE'
    exact absurd hE' (by simp)

/-- Witness for C6 at a concrete input: the member `mw1` matches the
remote person `paw`; even though every remote update fails in `envU`,
the link is persisted and the member is reported as matched. -/
theorem C6_matched_best_effort_witness :
    (tryMatchMember envU false false (emailIndexEntries [paw]) [] mw1 none stW).store
      = storeUpdate stW.store mw1.id (some paw.id) :=
  (C6_matched_best_effort envU false (emailIndexEntries [paw]) [] mw1 none stW paw
    (by decide)).1

/-- C5: when `createMissing=true` and `dryRun=false`, a failing remote
creation for an (unlinked, unmatched) member turns into exactly one
errors-bucket entry carrying the failure's message, with the store, the
remote directory and the id supply unchanged — so the processing of every
other member is unaffected; in the three-member scenario where only the
second member's creation fails, members 1 and 3 are created (with ids 10
and 11), member 2 alone is in errors, and member 3's link is persisted
despite member 2's failure. -/
theorem C5_isolated_failure (env : Env)
    (snapshot : List Person) (emailIndex : List (String × Person))
    (tmap : List (String × Nat)) (st : SyncState) (m : Member) (e : Option String)
    (hT : numTruthy m.doorflowPersonId = false)
    (hE : memberEmailMatch emailIndex m = none)
    (hF : env.createFail (createInputOfMember m (getGroupIdsForMember m tmap)
        (env.photoOf m)) = some e) :
    (processMember env true false snapshot emailIndex tmap st m
      = (st.addEffect (.personCreate (createInputOfMember m
          (getGroupIdsForMember m tmap) (env.photoOf m)))).pushErrors
          { member := m, error := e.getD "Failed to create person" })
    ∧ ((synchronize envB true false [ma5, mb5, mc5] [] [] 10).results.created.map
        (fun x => (x.member.id, x.personId)) = [("ma5", 10), ("mc5", 11)]
      ∧ (synchronize envB true false [ma5, mb5, mc5] [] [] 10).results.errors.map
          (fun x => (x.member.id, x.error)) = [("mb5", "boom")]
      ∧ (synchronize envB true false [ma5, mb5, mc5] [] [] 10).results.matched = []
      ∧ (synchronize envB true false [ma5, mb5, mc5] [] [] 10).results.unmatched = []
      ∧ storeLookup (synchronize envB true false [ma5, mb5, mc5] [] [] 10).store "mc5"
          = some { mc5 with doorflowPersonId := some 11 }) := by
  constructor
  · exact processMember_createFail_eq env snapshot emailIndex tmap st m e hT hE hF
  · exact ⟨by decide, by decide, by decide, by decide, by decide⟩

/-- Witness for C5 at a concrete input: the unlinked member `mw1` whose
creation fails is pushed to errors with the failure's message and nothing
else changes. -/
theorem C5_isolated_failure_witness :
    processMember envFail true false [] [] [] stW mw1
      = (stW.addEffect (.personCreate (createInputOfMember mw1
          (getGroupIdsForMember mw1 []) (envFail.photoOf mw1)))).pushErrors
          { member := mw1, error := "boom" } :=
  (C5_isolated_failure envFail [] [] [] stW mw1 (some "boom") rfl rfl rfl).1

theorem synchronize_eq (env : Env) (cm dr : Bool) (members : List Member)
    (teams : List Team) (ppl : List Person) (nid : Nat) :
    synchronize env cm dr members teams ppl nid
      = members.foldl
          (processMember env cm dr ppl (emailIndexEntries ppl) (teamToGroupEntries teams))
          { store := members, remote := ppl, nextId := nid } := rfl

/-- C8 counterexample: with one unlinked member, `createMissing=true` and
`dryRun=false`, the first run has an empty matched set (the member is in
`created`), while the immediately following run — same flags, no
remote-side changes in between — reports the member as matched: the two
runs do not yield the same matched set. -/
theorem C8_counterexample :
    (synchronize envOK true false [mw1] [] [] 1).results.matched = []
    ∧ (synchronize envOK true false
        (synchronize envOK true false [mw1] [] [] 1).store []
        (synchronize envOK true false [mw1] [] [] 1).remote
        (synchronize envOK true false [mw1] [] [] 1).nextId).results.matched.map
        (fun y => (y.member.id, y.personId)) = [("m1", 1)] :=
  ⟨by decide, by decide⟩

/-- C8 (amended): for distinct member ids, nonzero remote ids and a
nonzero fresh-id seed, every member reported as matched or created by a
live run is reported as matched — with the same person id — by a second
live run over the stores the first run left behind, and the second run
issues no `createPerson` call whose back-reference (`systemId`) is that
member's id: no duplicate remote records are created for it. -/
theorem C8_idempotence_amended (env : Env) (cm : Bool) (members : List Member)
    (teams : List Team) (ppl : List Person) (nid : Nat)
    (hnd : (members.map Member.id).Nodup)
    (hpos : ∀ p ∈ ppl, p.id ≠ 0)
    (hnz : nid ≠ 0) :
    ∀ x, (x ∈ (synchronize env cm false members teams ppl nid).results.matched
        ∨ x ∈ (synchronize env cm false members teams ppl nid).results.created) →
      (∃ y ∈ (synchronize env cm false
            (synchronize env cm false members teams ppl nid).store teams
            (synchronize env cm false members teams ppl nid).remote
            (synchronize env cm false members teams ppl nid).nextId).results.matched,
          y.member.id = x.member.id ∧ y.personId = x.personId)
      ∧ (∀ inp, Effect.personCreate inp
            ∈ (synchronize env cm false
                (synchronize env cm false members teams ppl nid).store teams
                (synchronize env cm false members teams ppl nid).remote
                (synchronize env cm false members teams ppl nid).nextId).trace →
          inp.systemId ≠ some x.member.id) := by
  intro x hx
  have hgood : entryGood (synchronize env cm false members teams ppl nid) x := by
    rw [synchronize_eq] at hx ⊢
    exact foldl_entries env cm ppl (teamToGroupEntries teams) members
      { store := members, remote := ppl, nextId := nid } hnd hpos
      (fun pid hp => hp) hnz
      (fun m' hm' => storeLookup_self_of_nodup members m' hnd hm')
      (fun y hy => absurd hy (by simp))
      (fun y hy => absurd hy (by simp))
      x hx
  obtain ⟨⟨m0, hlook, hdp0⟩, hrem, hnz0⟩ := hgood
  have hm0mem : m0 ∈ (synchronize env cm false members teams ppl nid).store :=
    storeLookup_mem _ _ _ hlook
  have hm0id : m0.id = x.member.id := storeLookup_id _ _ _ hlook
  have hnd1 : ((synchronize env cm false members teams ppl nid).store.map Member.id).Nodup := by
    rw [synchronize_eq, foldl_store_map_id]
    exact hnd
  constructor
  · refine ⟨{ member := m0, personId := x.personId }, ?_, hm0id, rfl⟩
    rw [synchronize_eq]
    exact foldl_linked_matched env cm false
      (synchronize env cm false members teams ppl nid).remote
      (emailIndexEntries (synchronize env cm false members teams ppl nid).remote)
      (teamToGroupEntries teams)
      (synchronize env cm false members teams ppl nid).store
      _ m0 x.personId hm0mem hdp0 hnz0 hrem
  · intro inp hins hc
    rw [synchronize_eq] at hins
    rcases foldl_trace_create env cm false
        (synchronize env cm false members teams ppl nid).remote
        (emailIndexEntries (synchronize env cm false members teams ppl nid).remote)
        (teamToGroupEntries teams)
        (synchronize env cm false members teams ppl nid).store
        _ inp hins with habs | ⟨m2, hm2, hsys2, hlv⟩
    · exact absurd habs (by simp)
    · have hid2 : m2.id = m0.id := by
        rw [hsys2] at hc
        rw [hm0id]
        simpa using hc
      have h1 : storeLookup (synchronize env cm false members teams ppl nid).store m2.id
          = some m2 :=
        storeLookup_self_of_nodup _ m2 hnd1 hm2
      have h2 : storeLookup (synchronize env cm false members teams ppl nid).store m0.id
          = some m0 :=
        storeLookup_self_of_nodup _ m0 hnd1 hm0mem
      rw [hid2, h2] at h1
      have hm20 : m2 = m0 := by simpa using h1.symm
      have hfind : (((synchronize env cm false members teams ppl nid).remote).find?
          (fun p => some p.id == m0.doorflowPersonId)).isSome = true := by
        obtain ⟨q, hq, hqid⟩ := List.mem_map.mp hrem
        rw [List.find?_isSome]
        exact ⟨q, hq, by rw [hdp0, hqid]; simp⟩
      have hlvt : linkedValid (synchronize env cm false members teams ppl nid).remote m0
          = true := by
        rw [linkedValid, hfind, hdp0]
        simp [numTruthy, hnz0]
      rw [hm20, hlvt] at hlv
      exact absurd hlv (by simp)

/-- Witness for C8 (amended) at a concrete input: the member created in
the first run (person id 1) is matched with the same id by the second
run, and the second run issues no creation for it. -/
theorem C8_idempotence_amended_witness :
    (∃ y ∈ (synchronize envOK true false
          (synchronize envOK true false [mw1] [] [] 1).store []
          (synchronize envOK true false [mw1] [] [] 1).remote
          (synchronize envOK true false [mw1] [] [] 1).nextId).results.matched,
        y.member.id = "m1" ∧ y.personId = 1) := by
  have h := (C8_idempotence_amended envOK true [mw1] [] [] 1
    (by decide) (by decide) (by decide)
    { member := { mw1 with doorflowPersonId := some 1 }, personId := 1 }
    (Or.inr (by decide))).1
  simpa using h

end MemberSync
